import Mathlib

/-!
Verification development for the SpaRk chat backend (spark-core).

The Rust sources under spark-core/src are shallowly embedded as pure Lean
functions over an explicit store state `DB`.  Conventions of the embedding:

* `chrono::DateTime<Utc>` timestamps are natural numbers (`Time`); each
  operation that reads the clock takes `now : Nat` as a parameter.
* `Uuid::new_v4()` outputs are injected as parameters (a single id, or a
  generator `Nat -> String` indexed by the number of ids drawn so far);
  the sources treat collisions as an acceptable, unchecked risk, and the
  embedding of inserts does likewise.
* SQLite tables are Lean lists of rows; `INSERT` appends, `UPDATE ... WHERE`
  maps over rows, `DELETE ... WHERE` filters, `SELECT ... ORDER BY x DESC
  LIMIT l OFFSET o` filters, merge-sorts by the descending key, drops `o`
  and takes `l` (SQLite applies OFFSET before LIMIT).
* `query_row` on a statement returning no rows yields the database error
  that rusqlite reports as `QueryReturnedNoRows`.
* The reaction column stores JSON produced by serde; a round trip through
  serialization is the identity, so the embedding keeps the structured list.
* Fallible Rust functions returning `Result<T, AuthError>` become
  `Except AuthError T`; functions whose Rust body performs writes before a
  possible error return the (possibly changed) store separately.
* Rust `str::len` counts UTF-8 bytes, embedded as a fold over the
  characters; `str::trim().is_empty()` is embedded as an all-whitespace
  test; Unicode case mapping is embedded per character, which agrees with
  Rust on the ASCII range.
* `ORDER BY` is modeled with a stable insertion sort; SQLite fixes no
  order among rows with equal keys, and the theorems use only sortedness
  and membership of the result.
-/

namespace SpaRk

/-- users.rs lines 48-56: presence states of a user. -/
inductive Presence
  | Offline
  | Online
  | Away
  | DoNotDisturb
  | AppearOffline
deriving DecidableEq, Repr

/-- users.rs lines 5-19: a persisted user row. -/
structure User where
  id : String
  username : String
  email : String
  password_hash : String
  created_at : Nat
  last_login : Option Nat
  presence : Presence
  status : Option String
deriving DecidableEq, Repr

/-- users.rs lines 21-27: a persisted session row. -/
structure Session where
  id : Nat
  user_id : String
  token : String
  created_at : Nat
  expires_at : Nat
deriving DecidableEq, Repr

/-- messages.rs lines 31-38: a persisted room row. -/
structure Room where
  id : String
  name : String
  desc : String
  created_by : String
  created_at : Nat
deriving DecidableEq, Repr

/-- messages.rs lines 40-45: a room membership row (primary key is the pair). -/
structure RoomMember where
  room_id : String
  user_id : String
  joined_at : Nat
deriving DecidableEq, Repr

/-- messages.rs lines 4-9: the message type discriminator. -/
inductive MessageType
  | Room
  | Private
  | Server
deriving DecidableEq, Repr

/-- messages.rs lines 115-121: an emoji bucket of a message reaction list. -/
structure ReactionSummary where
  emoji : String
  count : Nat
  user_ids : List String
  usernames : List String
deriving DecidableEq, Repr

/-- messages.rs lines 11-29: a persisted message row. -/
structure Message where
  id : String
  sender_id : String
  message_type : MessageType
  room_id : Option String
  receiver_id : Option String
  content : String
  sent_at : Nat
  read_at : Option Nat
  is_read : Bool
  is_edited : Bool
  edited_at : Option Nat
  reply_to_message_id : Option String
  reactions : List ReactionSummary
  is_pinned : Bool
  pinned_at : Option Nat
  pinned_by : Option String
deriving DecidableEq, Repr

/-- database.rs lines 121-133: a message_mentions row. -/
structure Mention where
  id : String
  message_id : String
  mentioned_user_id : String
  is_read : Bool
  notified_at : Option Nat
  read_at : Option Nat
  created_at : Nat
deriving DecidableEq, Repr

/-- The SQLite store created by Database::init (database.rs lines 41-193),
one list per table. -/
structure DB where
  users : List User
  sessions : List Session
  rooms : List Room
  room_members : List RoomMember
  messages : List Message
  mentions : List Mention
deriving DecidableEq, Repr

/-- error.rs lines 3-25: the error taxonomy.  The database constructor keeps
the rusqlite error text. -/
inductive AuthError
  | database (msg : String)
  | passwordHash (msg : String)
  | invalidCredentials
  | userExists
  | userNotFound
  | invalidSession
  | invalidInput (msg : String)
deriving DecidableEq, Repr

/-- Whether a fallible call succeeded (Result::is_ok). -/
def isSuccess : Except AuthError α → Bool
  | .ok _ => true
  | .error _ => false

namespace Database

/-- database.rs lines 224-248: SELECT of the user row with the given
username (the username column is UNIQUE, so the first match is the row). -/
def get_user_by_username (db : DB) (username : String) : Option User :=
  db.users.find? (fun u => u.username == username)

/-- database.rs lines 250-274: SELECT of the user row with the given id. -/
def get_user_by_id (db : DB) (user_id : String) : Option User :=
  db.users.find? (fun u => u.id == user_id)

/-- database.rs lines 325-346: SELECT of the session row with the given
token (the token column is UNIQUE, so the first match is the row). -/
def get_session_by_token (db : DB) (token : String) : Option Session :=
  db.sessions.find? (fun s => s.token == token)

/-- database.rs lines 348-351: DELETE FROM sessions WHERE token matches. -/
def delete_session (db : DB) (token : String) : DB :=
  { db with sessions := db.sessions.filter (fun s => !(s.token == token)) }

/-- database.rs lines 407-427: SELECT of the room row with the given id. -/
def get_room_by_id (db : DB) (room_id : String) : Option Room :=
  db.rooms.find? (fun r => r.id == room_id)

/-- database.rs lines 446-453: COUNT of room_members rows for the pair,
compared against zero. -/
def is_user_in_room (db : DB) (room_id user_id : String) : Bool :=
  decide (0 < db.room_members.countP
    (fun rm => rm.room_id == room_id && rm.user_id == user_id))

/-- database.rs lines 933-974: SELECT of the message row with the given id. -/
def get_message_by_id (db : DB) (message_id : String) : Option Message :=
  db.messages.find? (fun m => m.id == message_id)

/-- Descending comparison on sent_at, the ORDER BY sent_at DESC key. -/
def sentAtDesc (a b : Message) : Bool := b.sent_at ≤ a.sent_at

/-- Descending comparison on the nullable pinned_at column: in SQLite NULL
is smaller than every value, so DESC puts NULL rows last. -/
def optTimeLe (a b : Option Nat) : Bool :=
  match a, b with
  | none, _ => true
  | some _, none => false
  | some x, some y => x ≤ y

/-- Descending comparison on pinned_at, the ORDER BY pinned_at DESC key. -/
def pinnedAtDesc (a b : Message) : Bool := optTimeLe b.pinned_at a.pinned_at

/-- Insertion of an element into a sorted list, the step of sortBy. -/
def insertSorted (le : α → α → Bool) (a : α) : List α → List α
  | [] => [a]
  | b :: bs => if le a b then a :: b :: bs else b :: insertSorted le a bs

/-- A stable insertion sort modeling SQL ORDER BY. -/
def sortBy (le : α → α → Bool) : List α → List α
  | [] => []
  | a :: as => insertSorted le a (sortBy le as)

/-- Rust char-wise lowercasing of a string (String::to_lowercase and
str::to_lowercase), faithful on the ASCII range. -/
def lowerStr (s : String) : String := String.mk (s.data.map Char.toLower)

/-- Rust content.trim().is_empty(): true exactly when every character is
whitespace. -/
def trimIsEmpty (s : String) : Bool := s.data.all (fun c => c.isWhitespace)

/-- Rust str::len: the UTF-8 byte count of the string. -/
def utf8Len (s : String) : Nat := s.data.foldl (fun n c => n + c.utf8Size) 0

/-- database.rs lines 516-556: room plus server messages of the room,
ordered by sent_at descending, with LIMIT and OFFSET. -/
def get_room_messages (db : DB) (room_id : String) (limit offset : Nat) :
    List Message :=
  ((sortBy sentAtDesc (db.messages.filter (fun m =>
      (m.message_type == MessageType.Room || m.message_type == MessageType.Server)
        && m.room_id == some room_id))).drop offset).take limit

/-- database.rs lines 590-630: private messages between the two users,
ordered by sent_at descending, with LIMIT and OFFSET. -/
def get_private_messages_between_users (db : DB) (user1_id user2_id : String)
    (limit offset : Nat) : List Message :=
  ((sortBy sentAtDesc (db.messages.filter (fun m =>
      m.message_type == MessageType.Private
        && ((m.sender_id == user1_id && m.receiver_id == some user2_id)
            || (m.sender_id == user2_id && m.receiver_id == some user1_id))))).drop
      offset).take limit

/-- database.rs lines 632-678: private messages received by the user,
optionally unread only, ordered by sent_at descending, with LIMIT and
OFFSET. -/
def get_received_private_messages (db : DB) (receiver_id : String)
    (unread_only : Bool) (limit offset : Nat) : List Message :=
  let rows :=
    if unread_only then
      db.messages.filter (fun m =>
        m.message_type == MessageType.Private
          && m.receiver_id == some receiver_id && !m.is_read)
    else
      db.messages.filter (fun m =>
        m.message_type == MessageType.Private && m.receiver_id == some receiver_id)
  ((sortBy sentAtDesc rows).drop offset).take limit

/-- database.rs lines 1043-1050: UPDATE setting the three pin columns on
every message row with the given id. -/
def pin_message (db : DB) (now : Nat) (message_id user_id : String) : DB :=
  { db with messages := db.messages.map (fun m =>
      if m.id == message_id then
        { m with is_pinned := true, pinned_at := some now, pinned_by := some user_id }
      else m) }

/-- database.rs lines 1052-1058: UPDATE clearing the three pin columns on
every message row with the given id. -/
def unpin_message (db : DB) (message_id : String) : DB :=
  { db with messages := db.messages.map (fun m =>
      if m.id == message_id then
        { m with is_pinned := false, pinned_at := none, pinned_by := none }
      else m) }

/-- database.rs lines 1060-1102: pinned messages of the room ordered by
pinned_at descending. -/
def get_pinned_messages (db : DB) (room_id : String) : List Message :=
  sortBy pinnedAtDesc
    (db.messages.filter (fun m => m.room_id == some room_id && m.is_pinned))

/-- database.rs lines 986-999: the read-modify-write step of add_reaction.
The first bucket whose emoji matches receives the user (a no-op when the
user id is already present); with no matching bucket a fresh singleton
bucket is appended at the end. -/
def addReactionUpdate : List ReactionSummary → String → String → String →
    List ReactionSummary
  | [], user_id, username, emoji =>
    [{ emoji := emoji, count := 1, user_ids := [user_id], usernames := [username] }]
  | r :: rest, user_id, username, emoji =>
    if r.emoji == emoji then
      (if user_id ∈ r.user_ids then r
       else { r with user_ids := r.user_ids ++ [user_id],
                     usernames := r.usernames ++ [username],
                     count := r.count + 1 }) :: rest
    else r :: addReactionUpdate rest user_id username emoji

/-- database.rs lines 976-1009: add_reaction reads the reaction list of the
message (query_row fails with the no-rows database error when the message
does not exist), applies addReactionUpdate, and writes the result back to
every message row with the given id. -/
def add_reaction (db : DB) (message_id user_id username emoji : String) :
    DB × Except AuthError (List ReactionSummary) :=
  match db.messages.find? (fun m => m.id == message_id) with
  | none => (db, .error (.database "Query returned no rows"))
  | some m =>
    let reactions := addReactionUpdate m.reactions user_id username emoji
    ({ db with messages := db.messages.map (fun msg =>
        if msg.id == message_id then { msg with reactions := reactions } else msg) },
     .ok reactions)

/-- database.rs lines 1021-1031: the read-modify-write step of
remove_reaction, the code between the JSON parse and the write-back.  Every
bucket whose emoji matches drops the first occurrence of the user id (and
the parallel username entry) and saturating-decrements its count; buckets
whose count is not positive are then discarded.  remove_reaction itself
never reaches this code because its initial SELECT is misspelled, see
remove_reaction below. -/
def removeReactionUpdate (reactions : List ReactionSummary)
    (user_id emoji : String) : List ReactionSummary :=
  (reactions.map (fun r =>
    if r.emoji == emoji then
      match r.user_ids.findIdx? (fun i => i == user_id) with
      | some pos =>
        { r with user_ids := r.user_ids.eraseIdx pos,
                 usernames := r.usernames.eraseIdx pos,
                 count := r.count - 1 }
      | none => r
    else r)).filter (fun r => decide (0 < r.count))

/-- database.rs lines 1011-1041: remove_reaction first runs query_row on
the SQL text beginning with the misspelled keyword SELET, so statement
preparation fails with a syntax error; the function returns that database
error before reading or writing anything, and the store is unchanged. -/
def remove_reaction (db : DB) (_message_id _user_id _emoji : String) :
    DB × Except AuthError (List ReactionSummary) :=
  (db, .error (.database "near \"SELET\": syntax error"))

/-- database.rs lines 837-851: get_message_mentions selects the column
mentioned_user_ids, but the message_mentions table (database.rs line 125)
declares the column mentioned_user_id; statement preparation therefore
always fails with a no-such-column error. -/
def get_message_mentions (_db : DB) (_message_id : String) :
    Except AuthError (List String) :=
  .error (.database "no such column: mentioned_user_ids")

/-- Character-list test for a needle being a leading segment of a haystack. -/
def startsWithChars : List Char → List Char → Bool
  | _, [] => true
  | [], _ :: _ => false
  | c :: cs, d :: ds => c == d && startsWithChars cs ds

/-- Character-list substring containment, the semantics of Rust
str::contains on a literal pattern. -/
def containsChars : List Char → List Char → Bool
  | [], needle => startsWithChars [] needle
  | c :: rest, needle =>
    if startsWithChars (c :: rest) needle then true else containsChars rest needle

/-- database.rs lines 795-797: everyone_mentioned lowercases the content
and tests substring containment of the literal text at-everyone. -/
def everyone_mentioned (content : String) : Bool :=
  containsChars (lowerStr content).data "@everyone".data

/-- A regex word character (the class matched by backslash-w), modeled over
the ASCII range: letters, digits and the underscore. -/
def isWordChar (c : Char) : Bool := c.isAlphanum || c == '_'

/-- The capture scan of the regex at-sign-then-word-chars used by
extract_mentions (database.rs line 788): at each at-sign the maximal
following run of word characters is captured when nonempty, and scanning
resumes after the capture; matches are non-overlapping, left to right.
The scan consumes at least one character per step, so fuel equal to the
number of characters makes the recursion total. -/
def extractMentionsGo : Nat → List Char → List String
  | 0, _ => []
  | _ + 1, [] => []
  | fuel + 1, c :: rest =>
    if c == '@' then
      let w := rest.takeWhile isWordChar
      if w.isEmpty then extractMentionsGo fuel rest
      else String.mk w :: extractMentionsGo fuel (rest.drop w.length)
    else extractMentionsGo fuel rest

/-- database.rs lines 787-793: extract_mentions captures every word after
an at-sign and drops the captures that lowercase to the word everyone. -/
def extract_mentions (content : String) : List String :=
  (extractMentionsGo content.data.length content.data).filter
    (fun username => !(lowerStr username == "everyone"))

/-- Code-point comparison of character lists: SQLite's default BINARY
collation on UTF-8 text coincides with code-point order. -/
def charListLe : List Char → List Char → Bool
  | [], _ => true
  | _ :: _, [] => false
  | a :: as, b :: bs =>
    if a.toNat < b.toNat then true
    else if b.toNat < a.toNat then false
    else charListLe as bs

/-- The ORDER BY u.username key of get_room_members. -/
def usernameLe (a b : User) : Bool := charListLe a.username.data b.username.data

/-- database.rs lines 757-785: users joined with room_members on user id,
restricted to the room, ordered by username ascending. -/
def get_room_members (db : DB) (room_id : String) : List User :=
  sortBy usernameLe
    ((db.room_members.filter (fun rm => rm.room_id == room_id)).flatMap
      (fun rm => db.users.filter (fun u => u.id == rm.user_id)))

/-- A single INSERT INTO message_mentions (database.rs lines 809-813 and
824-828): id from the uuid generator, unread, notified_at and created_at
stamped with the current time. -/
def insertMention (db : DB) (mention_id message_id mentioned_user_id : String)
    (now : Nat) : DB :=
  { db with mentions := db.mentions ++
      [{ id := mention_id, message_id := message_id,
         mentioned_user_id := mentioned_user_id, is_read := false,
         notified_at := some now, read_at := none, created_at := now }] }

/-- database.rs lines 804-816: the member loop of the at-everyone branch of
save_message_mentions; `k` counts the mention ids drawn so far. -/
def mentionLoopEveryone (message_id sender_id : String) (now : Nat)
    (genId : Nat → String) : List User → DB → Nat → DB × List String
  | [], db, _ => (db, [])
  | member :: rest, db, k =>
    if member.id ≠ sender_id then
      let db2 := insertMention db (genId k) message_id member.id now
      let r := mentionLoopEveryone message_id sender_id now genId rest db2 (k + 1)
      (r.1, member.id :: r.2)
    else mentionLoopEveryone message_id sender_id now genId rest db k

/-- database.rs lines 818-832: the username loop of save_message_mentions;
user lookups run against the user table, which the loop never modifies, so
they are taken on the starting store `db0`. -/
def mentionLoopNames (db0 : DB) (message_id sender_id : String) (now : Nat)
    (genId : Nat → String) : List String → DB → Nat → DB × List String
  | [], db, _ => (db, [])
  | name :: rest, db, k =>
    match get_user_by_username db0 name with
    | some user =>
      if user.id ≠ sender_id then
        let db2 := insertMention db (genId k) message_id user.id now
        let r := mentionLoopNames db0 message_id sender_id now genId rest db2 (k + 1)
        (r.1, user.id :: r.2)
      else mentionLoopNames db0 message_id sender_id now genId rest db k
    | none => mentionLoopNames db0 message_id sender_id now genId rest db k

/-- database.rs lines 799-835: save_message_mentions.  When the content
contains at-everyone, every room member other than the sender receives a
mention row; otherwise each extracted username that resolves to a user
other than the sender receives one row per occurrence.  Returns the store
with the inserted rows and the notified user ids in insertion order. -/
def save_message_mentions (db : DB) (genId : Nat → String)
    (message_id sender_id content room_id : String) (now : Nat) :
    DB × List String :=
  if everyone_mentioned content then
    mentionLoopEveryone message_id sender_id now genId (get_room_members db room_id) db 0
  else
    mentionLoopNames db message_id sender_id now genId (extract_mentions content) db 0

/-- database.rs lines 479-514: INSERT of a fresh room message and the
returned entity. -/
def create_room_message (db : DB) (id : String) (now : Nat)
    (sender_id room_id content : String) (reply_to_message_id : Option String) :
    DB × Message :=
  let m : Message :=
    { id := id, sender_id := sender_id, message_type := .Room,
      room_id := some room_id, receiver_id := none, content := content,
      sent_at := now, read_at := none, is_read := false, is_edited := false,
      edited_at := none, reply_to_message_id := reply_to_message_id,
      reactions := [], is_pinned := false, pinned_at := none, pinned_by := none }
  ({ db with messages := db.messages ++ [m] }, m)

end Database

/-- messages.rs lines 49-54: request payload of a room message send. -/
structure SendRoomMessageRequest where
  room_id : String
  content : String
  reply_to_message_id : Option String
deriving DecidableEq, Repr

/-- messages.rs lines 69-75: request payload of a private message fetch. -/
structure GetPrivateMessagesRequest where
  with_user : Option String
  limit : Option Nat
  offset : Option Nat
  unread_only : Bool
deriving DecidableEq, Repr

/-- messages.rs lines 107-113: the reply context attached to a response. -/
structure MessageReplyContext where
  id : String
  sender_username : String
  content : String
  sent_at : Nat
deriving DecidableEq, Repr

/-- messages.rs lines 79-92: the rendered room message response. -/
structure RoomMessageResponse where
  id : String
  sender_username : String
  message_type : MessageType
  room_id : String
  room_name : String
  content : String
  sent_at : Nat
  is_edited : Bool
  edited_at : Option Nat
  mentions : List String
  reply_to : Option MessageReplyContext
deriving DecidableEq, Repr

/-- messages.rs lines 94-105: the rendered private message response. -/
structure PrivateMessageResponse where
  id : String
  sender_username : String
  receiver_username : String
  content : String
  sent_at : Nat
  read_at : Option Nat
  is_read : Bool
  is_edited : Bool
  edited_at : Option Nat
deriving DecidableEq, Repr

namespace AuthService

/-- network.rs lines 117-132: validate_session.  An unknown token fails
InvalidSession; a session whose expires_at is strictly before now is
deleted and fails InvalidSession; otherwise the session resolves to its
user, failing UserNotFound when the user row vanished.  The store is
returned alongside because the expired branch deletes the session before
failing. -/
def validate_session (db : DB) (now : Nat) (token : String) :
    DB × Except AuthError User :=
  match Database.get_session_by_token db token with
  | none => (db, .error .invalidSession)
  | some session =>
    if session.expires_at < now then
      (Database.delete_session db token, .error .invalidSession)
    else
      match Database.get_user_by_id db session.user_id with
      | none => (db, .error .userNotFound)
      | some user => (db, .ok user)

end AuthService

namespace MessageService

/-- network.rs lines 154-164: the content validation applied to outgoing
messages; Rust str::len counts UTF-8 bytes. -/
def validate_message_content (content : String) : Except AuthError Unit :=
  if Database.trimIsEmpty content then
    .error (.invalidInput "Message content cannot be empty")
  else if Database.utf8Len content > 10000 then
    .error (.invalidInput "Message too long (max 10,000 characters")
  else
    .ok ()

/-- network.rs lines 264-281: resolution of the reply context while
rendering fetched messages; lookup failures degrade to no context. -/
def resolveReplyContext (db : DB) (msg : Message) : Option MessageReplyContext :=
  match msg.reply_to_message_id with
  | none => none
  | some reply_to_id =>
    match Database.get_message_by_id db reply_to_id with
    | none => none
    | some reply_msg =>
      match Database.get_user_by_id db reply_msg.sender_id with
      | none => none
      | some reply_sender =>
        some { id := reply_msg.id, sender_username := reply_sender.username,
               content := reply_msg.content, sent_at := reply_msg.sent_at }

/-- network.rs lines 166-214: send_room_message.  Content is validated,
the sender must hold a persisted membership in the room, the room and the
sender rows are loaded, an optional reply target must exist and lie in the
same room, then the message row is inserted and mentions are extracted and
saved.  An error return leaves the store untouched: every failure in the
source precedes the first INSERT. -/
def send_room_message (db : DB) (now : Nat) (messageId : String)
    (genId : Nat → String) (sender_id : String) (request : SendRoomMessageRequest) :
    Except AuthError (DB × RoomMessageResponse × List String) :=
  match validate_message_content request.content with
  | .error e => .error e
  | .ok _ =>
    if !(Database.is_user_in_room db request.room_id sender_id) then
      .error (.invalidInput "You are not a member of this room")
    else
      match Database.get_room_by_id db request.room_id with
      | none => .error (.invalidInput "Room not found")
      | some room =>
        match Database.get_user_by_id db sender_id with
        | none => .error .userNotFound
        | some sender =>
          let replyStep : Except AuthError (Option MessageReplyContext) :=
            match request.reply_to_message_id with
            | none => .ok none
            | some reply_to_id =>
              match Database.get_message_by_id db reply_to_id with
              | some reply_msg =>
                if reply_msg.room_id ≠ some request.room_id then
                  .error (.invalidInput "Reply message not in same room")
                else
                  .ok ((Database.get_user_by_id db reply_msg.sender_id).map
                    (fun reply_sender =>
                      { id := reply_msg.id,
                        sender_username := reply_sender.username,
                        content := reply_msg.content,
                        sent_at := reply_msg.sent_at }))
              | none => .error (.invalidInput "Reply message not found")
          match replyStep with
          | .error e => .error e
          | .ok reply_context =>
            let cr := Database.create_room_message db messageId now sender_id
              request.room_id request.content request.reply_to_message_id
            let sm := Database.save_message_mentions cr.1 genId cr.2.id sender_id
              request.content request.room_id now
            .ok (sm.1,
              { id := cr.2.id, sender_username := sender.username,
                message_type := cr.2.message_type, room_id := room.id,
                room_name := room.name, content := cr.2.content,
                sent_at := cr.2.sent_at, is_edited := cr.2.is_edited,
                edited_at := cr.2.edited_at, mentions := sm.2,
                reply_to := reply_context },
              sm.2)

/-- network.rs lines 254-300: the room history service call.  Messages are
fetched with the limit and offset passed through unchanged, the room must
exist, and each message whose sender row still exists is rendered; the
mention list comes from get_message_mentions, whose query always fails
(see Database.get_message_mentions), and unwrap_or_default turns that
failure into the empty list. -/
def get_room_messages (db : DB) (room_id : String) (limit offset : Nat) :
    Except AuthError (List RoomMessageResponse) :=
  let messages := Database.get_room_messages db room_id limit offset
  match Database.get_room_by_id db room_id with
  | none => .error (.invalidInput "Room not found")
  | some room =>
    .ok (messages.filterMap (fun msg =>
      (Database.get_user_by_id db msg.sender_id).map (fun sender =>
        { id := msg.id,
          sender_username :=
            match msg.message_type with
            | .Server => "Server"
            | _ => sender.username,
          message_type := msg.message_type,
          room_id := room.id, room_name := room.name,
          content := msg.content, sent_at := msg.sent_at,
          is_edited := msg.is_edited, edited_at := msg.edited_at,
          mentions :=
            match Database.get_message_mentions db msg.id with
            | .ok l => l
            | .error _ => [],
          reply_to := resolveReplyContext db msg })))

/-- network.rs line 321: the page limit actually used by
get_private_messages. -/
def private_page_limit (request : GetPrivateMessagesRequest) : Nat :=
  min (request.limit.getD 50) 100

/-- network.rs line 322: the page offset actually used by
get_private_messages; it reads the limit field of the request, never the
offset field. -/
def private_page_offset (request : GetPrivateMessagesRequest) : Nat :=
  request.limit.getD 0

/-- network.rs lines 331-347: the rendering loop of get_private_messages;
a missing sender or receiver row aborts the whole call with UserNotFound.
The source unwraps receiver_id, which is always set on the private rows the
queries return; the unreachable missing case is rendered with the empty
id. -/
def privateEnrich (db : DB) :
    List Message → Except AuthError (List PrivateMessageResponse)
  | [] => .ok []
  | msg :: rest =>
    match Database.get_user_by_id db msg.sender_id with
    | none => .error .userNotFound
    | some sender =>
      match Database.get_user_by_id db (msg.receiver_id.getD "") with
      | none => .error .userNotFound
      | some receiver =>
        match privateEnrich db rest with
        | .error e => .error e
        | .ok rs =>
          .ok ({ id := msg.id, sender_username := sender.username,
                 receiver_username := receiver.username, content := msg.content,
                 sent_at := msg.sent_at, read_at := msg.read_at,
                 is_read := msg.is_read, is_edited := msg.is_edited,
                 edited_at := msg.edited_at } :: rs)

/-- network.rs lines 320-350: get_private_messages.  Both the limit and
the offset handed to the store derive from the limit field of the request
(lines 321-322); the offset field is never read. -/
def get_private_messages (db : DB) (user_id : String)
    (request : GetPrivateMessagesRequest) :
    Except AuthError (List PrivateMessageResponse) :=
  let limit := private_page_limit request
  let offset := private_page_offset request
  match request.with_user with
  | some other_username =>
    match Database.get_user_by_username db other_username with
    | none => .error .userNotFound
    | some other_user =>
      privateEnrich db (Database.get_private_messages_between_users db user_id
        other_user.id limit offset)
  | none =>
    privateEnrich db (Database.get_received_private_messages db user_id
      request.unread_only limit offset)

end MessageService

/-- error.rs lines 3-25: the thiserror display text of each error (the
InvalidC spelling is in the source). -/
def AuthError.display : AuthError → String
  | .database msg => "Database Error: " ++ msg
  | .passwordHash msg => "Password hashing error: " ++ msg
  | .invalidCredentials => "InvalidC Credentials"
  | .userExists => "User already exists"
  | .userNotFound => "User not found"
  | .invalidSession => "Session not found or expired"
  | .invalidInput msg => "Invalid input: " ++ msg

/-- websocket.rs lines 113-118: the room summary sent in room lists. -/
structure RoomInfo where
  id : String
  name : String
  desc : String
deriving DecidableEq, Repr

/-- websocket.rs lines 134-138: a typing indicator entry. -/
structure TypingUser where
  user_id : String
  username : String
deriving DecidableEq, Repr

/-- websocket.rs lines 13-49: the inbound client commands.  SendMessage and
EditMessage carry the optional content_format field present in this file of
the snapshot. -/
inductive WsClientMessage
  | Authenticate (token : String)
  | CreateRoom (name desc : String)
  | GetAllRooms
  | JoinRoom (room_id : String)
  | LeaveRoom (room_id : String)
  | SendMessage (room_id content : String) (reply_to_message_id : Option String)
      (content_format : Option String)
  | GetRoomHistory (room_id : String) (limit offset : Option Nat)
  | EditMessage (room_id message_id new_content : String)
      (content_format : Option String)
  | DeleteMessage (room_id message_id : String)
  | GetUserRooms (user_id : String)
  | GetRoomMembers (room_id : String)
  | UpdatePresence (user_id : String) (presence : Presence)
  | UpdateStatus (user_id status : String)
  | UpdateTyping (room_id : String) (is_typing : Bool)
  | GetUnreadMentionsCount (user_id : String)
  | MarkMentionsRead (message_id : String)
  | MarkRoomMentionsRead (room_id : String)
  | GetUserMentions (limit offset : Option Nat)
  | AddReaction (room_id message_id emoji : String)
  | RemoveReaction (room_id message_id emoji : String)
  | PinMessage (room_id message_id : String)
  | UnpinMessage (room_id message_id : String)
  | GetPinnedMessages (room_id : String)
deriving DecidableEq, Repr

/-- websocket.rs lines 51-111: the outbound server events.  Timestamps the
source renders with to_rfc3339 are kept as Nat timestamps. -/
inductive WsServerMessage
  | Authenticated (user_id username : String)
  | Error (message : String)
  | RoomCreated (room_id room_name : String)
  | RoomList (rooms : List RoomInfo)
  | RoomJoined (room_id room_name : String)
  | RoomLeft (room_id : String)
  | NewMessage (room_id : String) (message : RoomMessageResponse)
  | MessageSent (message_id : String)
  | RoomHistory (room_id : String) (messages : List RoomMessageResponse)
  | UserJoined (room_id user_id username : String)
  | UserLeft (room_id user_id username : String)
  | MessageEdited (room_id message_id new_content : String) (edited_at : Nat)
      (content_format : Option String)
  | MessageDeleted (room_id message_id : String)
  | UserRoomList (rooms : List RoomInfo)
  | RoomMembers (room_id : String) (members : List User)
  | PresenceChanged (user_id username : String) (presence : Presence)
  | StatusChanged (user_id username status : String)
  | TypingStatusChanged (room_id : String) (typing_users : List TypingUser)
  | MentionNotification (message_id room_id room_name sender_username
      content content_format : String) (sent_at : Nat)
  | UnreadMentionsCount (count : Int)
  | ReactionAdded (room_id message_id emoji user_id username : String)
      (reactions : List ReactionSummary)
  | ReactionRemoved (room_id message_id emoji user_id : String)
      (reactions : List ReactionSummary)
  | MessagePinned (room_id message_id pinned_by : String) (pinned_at : Nat)
  | MessageUnpinned (room_id message_id : String)
  | PinnedMessages (room_id : String) (messages : List RoomMessageResponse)
deriving DecidableEq, Repr

/-- The per-connection authentication state of the command loop
(websocket.rs lines 306-307): the two optionals set on successful
Authenticate and never cleared. -/
structure ConnState where
  auth_user_id : Option String
  auth_username : Option String
deriving DecidableEq, Repr

/-- Whether the command loop continues to the next inbound frame or breaks
out (ending the connection). -/
inductive LoopAction
  | cont
  | brk
deriving DecidableEq, Repr

/-- Results of the locked service and registry calls the dispatcher makes,
injected as oracles so the control flow of handle_websocket_connections can
be modeled independently of the concrete store.  Registry calls that return
Result of String are given as Except String; everything else uses
AuthError.  Some signatures follow this file of the snapshot (edit_message
takes a content format, pin_message returns the pin time) where it is ahead
of network.rs. -/
structure WsEnv where
  validate_session : String → Except AuthError User
  update_user_presence : String → Presence → Except AuthError Unit
  get_user_rooms : String → Except AuthError (List Room)
  get_room : String → Except AuthError (Option Room)
  join_room_db : String → String → Except AuthError Unit
  conn_join_room : String → String → Except String Unit
  conn_leave_room : String → String → Except String Unit
  leave_room_db : String → String → Except AuthError Unit
  send_room_message : String → String → String → Option String → Option String →
    Except AuthError (RoomMessageResponse × List String)
  send_room_announcement : String → String → String → Except AuthError RoomMessageResponse
  get_room_messages : String → Nat → Nat → Except AuthError (List RoomMessageResponse)
  create_room : String → String → String → Except AuthError Room
  get_all_rooms : Except AuthError (List Room)
  edit_message : String → String → Option String → Except AuthError Unit
  delete_message : String → String → Except AuthError Unit
  update_user_status : String → String → Except AuthError Unit
  get_room_members : String → Except AuthError (List User)
  set_typing : String → String → Bool → Except String Unit
  get_typing_users : String → List (String × String)
  get_unread_mentions_count : String → Except AuthError Int
  mark_mention_as_read : String → String → Except AuthError Unit
  mark_room_mentions_as_read : String → String → Except AuthError Unit
  get_user_mentions : String → Nat → Nat → Except AuthError (List RoomMessageResponse)
  add_reaction : String → String → String → String → Except AuthError (List ReactionSummary)
  remove_reaction : String → String → String → Except AuthError (List ReactionSummary)
  pin_message : String → String → String → Except AuthError Nat
  unpin_message : String → String → String → Except AuthError Unit
  get_pinned_messages : String → Except AuthError (List RoomMessageResponse)
  is_connected : String → Bool

/-- The observable outcome of dispatching one inbound command: events sent
to the originating connection (tx), events broadcast to rooms, events sent
directly to other users, the resulting authentication state, and whether
the loop continues. -/
structure StepOutcome where
  toClient : List WsServerMessage
  roomSends : List (String × WsServerMessage)
  userSends : List (String × WsServerMessage)
  state : ConnState
  action : LoopAction
deriving Repr

/-- A continuing outcome (every branch of the authenticated dispatcher
continues the loop). -/
def contOut (st : ConnState) (toClient : List WsServerMessage)
    (roomSends userSends : List (String × WsServerMessage)) : StepOutcome :=
  { toClient := toClient, roomSends := roomSends, userSends := userSends,
    state := st, action := .cont }

/-- websocket.rs lines 627-633 and 691-695: a room rendered as RoomInfo. -/
def roomToInfo (r : Room) : RoomInfo := { id := r.id, name := r.name, desc := r.desc }

/-- websocket.rs lines 398-961: the authenticated arm of the dispatcher.
Every branch sends its success events or an Error event and continues the
loop; nothing in this arm breaks.  The MentionNotification content_format
is rendered empty: the source copies a response field that is absent from
messages.rs in this snapshot. -/
def handleAuthed (env : WsEnv) (st : ConnState) (now : Nat) (user_id : String) :
    WsClientMessage → StepOutcome
  | .Authenticate _ =>
    contOut st [] [] []
  | .JoinRoom room_id =>
    match env.get_room room_id with
    | .ok (some room) =>
      match env.join_room_db user_id room_id with
      | .error e => contOut st [.Error ("Failed to join room: " ++ e.display)] [] []
      | .ok _ =>
        match env.conn_join_room user_id room_id with
        | .error emsg => contOut st [.Error ("Failed to join room: " ++ emsg)] [] []
        | .ok _ =>
          match st.auth_username with
          | some username =>
            let annSends :=
              match env.send_room_announcement user_id room_id
                  (username ++ " has joined the room") with
              | .ok resp => [(room_id, WsServerMessage.NewMessage room_id resp)]
              | .error _ => []
            let memberEvents :=
              match env.get_room_members room_id with
              | .ok members => [WsServerMessage.RoomMembers room_id members]
              | .error e =>
                [WsServerMessage.Error ("Failed to get room members: " ++ e.display)]
            contOut st ([.RoomJoined room_id room.name] ++ memberEvents)
              ([(room_id, WsServerMessage.UserJoined room_id user_id username)]
                ++ annSends) []
          | none => contOut st [.RoomJoined room_id room.name] [] []
    | .ok none => contOut st [.Error "Room not found"] [] []
    | .error e => contOut st [.Error ("Failed to get room: " ++ e.display)] [] []
  | .LeaveRoom room_id =>
    match env.conn_leave_room user_id room_id with
    | .error emsg => contOut st [.Error ("Failed to leave room: " ++ emsg)] [] []
    | .ok _ =>
      match env.leave_room_db user_id room_id with
      | .error e => contOut st [.Error ("Failed to leave room: " ++ e.display)] [] []
      | .ok _ =>
        match st.auth_username with
        | some username =>
          let annSends :=
            match env.send_room_announcement user_id room_id
                (username ++ " has left the room") with
            | .ok resp => [(room_id, WsServerMessage.NewMessage room_id resp)]
            | .error _ => []
          contOut st [.RoomLeft room_id]
            ([(room_id, WsServerMessage.UserLeft room_id user_id username)]
              ++ annSends) []
        | none => contOut st [.RoomLeft room_id] [] []
  | .SendMessage room_id content reply_to_message_id content_format =>
    match st.auth_username with
    | some _username =>
      match env.send_room_message user_id room_id content reply_to_message_id
          content_format with
      | .ok result =>
        contOut st [.MessageSent result.1.id]
          [(room_id, WsServerMessage.NewMessage room_id result.1)]
          ((result.2.filter env.is_connected).map (fun mentioned =>
            (mentioned, WsServerMessage.MentionNotification result.1.id
              result.1.room_id result.1.room_name result.1.sender_username
              result.1.content "" result.1.sent_at)))
      | .error e => contOut st [.Error ("Failed to send message: " ++ e.display)] [] []
    | none => contOut st [.Error "Not Authenticated"] [] []
  | .GetRoomHistory room_id limit offset =>
    match env.get_room_messages room_id (limit.getD 50) (offset.getD 0) with
    | .ok messages => contOut st [.RoomHistory room_id messages] [] []
    | .error e => contOut st [.Error ("Failed to get history: " ++ e.display)] [] []
  | .CreateRoom name desc =>
    match env.create_room user_id name desc with
    | .ok room =>
      let connJoinEvents :=
        match env.conn_join_room user_id room.id with
        | .error emsg => [WsServerMessage.Error ("Error joining created room: " ++ emsg)]
        | .ok _ => []
      let dbJoinEvents :=
        match env.join_room_db user_id room.id with
        | .error e =>
          [WsServerMessage.Error ("Error joining created room: " ++ e.display)]
        | .ok _ => []
      contOut st ([.RoomCreated room.id room.name] ++ connJoinEvents ++ dbJoinEvents
        ++ [.RoomJoined room.id room.name, .RoomHistory room.id []]) [] []
    | .error e => contOut st [.Error ("Error creating room: " ++ e.display)] [] []
  | .GetAllRooms =>
    match env.get_all_rooms with
    | .ok rooms => contOut st [.RoomList (rooms.map roomToInfo)] [] []
    | .error e => contOut st [.Error ("Error getting room list: " ++ e.display)] [] []
  | .EditMessage room_id message_id new_content content_format =>
    match env.edit_message message_id new_content content_format with
    | .ok _ =>
      contOut st []
        [(room_id, WsServerMessage.MessageEdited room_id message_id new_content
          now content_format)] []
    | .error e => contOut st [.Error ("Failed to edit message: " ++ e.display)] [] []
  | .DeleteMessage room_id message_id =>
    match env.delete_message user_id message_id with
    | .ok _ =>
      contOut st [] [(room_id, WsServerMessage.MessageDeleted room_id message_id)] []
    | .error e => contOut st [.Error ("Failed to delete message: " ++ e.display)] [] []
  | .GetUserRooms target_user_id =>
    match env.get_user_rooms target_user_id with
    | .ok rooms => contOut st [.UserRoomList (rooms.map roomToInfo)] [] []
    | .error e => contOut st [.Error ("Failed to get user rooms: " ++ e.display)] [] []
  | .UpdatePresence target_user_id presence =>
    let updEvents :=
      match env.update_user_presence target_user_id presence with
      | .ok _ => []
      | .error e => [WsServerMessage.Error ("Failed to update presence: " ++ e.display)]
    match env.get_user_rooms target_user_id with
    | .ok rooms =>
      contOut st updEvents
        (rooms.map (fun room => (room.id, WsServerMessage.PresenceChanged
          target_user_id (st.auth_username.getD "") presence))) []
    | .error e =>
      contOut st (updEvents
        ++ [.Error ("Failed to broadcase presence: " ++ e.display)]) [] []
  | .UpdateStatus target_user_id status =>
    let updEvents :=
      match env.update_user_status target_user_id status with
      | .ok _ => []
      | .error e => [WsServerMessage.Error ("Failed to update status: " ++ e.display)]
    match env.get_user_rooms target_user_id with
    | .ok rooms =>
      contOut st updEvents
        (rooms.map (fun room => (room.id, WsServerMessage.StatusChanged
          target_user_id (st.auth_username.getD "") status))) []
    | .error e =>
      contOut st (updEvents
        ++ [.Error ("Failed to broadcast status: " ++ e.display)]) [] []
  | .GetRoomMembers room_id =>
    match env.get_room_members room_id with
    | .ok members => contOut st [.RoomMembers room_id members] [] []
    | .error e =>
      contOut st [.Error ("Failed to get room members: " ++ e.display)] [] []
  | .UpdateTyping room_id is_typing =>
    match env.set_typing user_id room_id is_typing with
    | .error emsg =>
      contOut st [.Error ("Failed to update typing status : " ++ emsg)] [] []
    | .ok _ =>
      let typing_users := (env.get_typing_users room_id).map
        (fun p => { user_id := p.1, username := p.2 : TypingUser })
      contOut st []
        [(room_id, WsServerMessage.TypingStatusChanged room_id typing_users)] []
  | .GetUnreadMentionsCount target_user_id =>
    if user_id == target_user_id then
      match env.get_unread_mentions_count target_user_id with
      | .ok count => contOut st [.UnreadMentionsCount count] [] []
      | .error e =>
        contOut st [.Error ("Error getting unread mentions count: " ++ e.display)] [] []
    else contOut st [] [] []
  | .MarkMentionsRead message_id =>
    match env.mark_mention_as_read user_id message_id with
    | .ok _ =>
      match env.get_unread_mentions_count user_id with
      | .ok count => contOut st [.UnreadMentionsCount count] [] []
      | .error _ => contOut st [] [] []
    | .error e =>
      contOut st [.Error ("Error marking mentions as read: " ++ e.display)] [] []
  | .MarkRoomMentionsRead room_id =>
    match env.mark_room_mentions_as_read user_id room_id with
    | .ok _ =>
      match env.get_unread_mentions_count user_id with
      | .ok count => contOut st [.UnreadMentionsCount count] [] []
      | .error _ => contOut st [] [] []
    | .error e =>
      contOut st [.Error ("Error marking room mentions as read: " ++ e.display)] [] []
  | .GetUserMentions limit offset =>
    match env.get_user_mentions user_id (limit.getD 100) (offset.getD 0) with
    | .ok mentions => contOut st [.RoomHistory "mentions" mentions] [] []
    | .error e => contOut st [.Error ("Error fetching mentions: " ++ e.display)] [] []
  | .AddReaction room_id message_id emoji =>
    match st.auth_username with
    | some username =>
      match env.add_reaction message_id user_id username emoji with
      | .ok reactions =>
        contOut st []
          [(room_id, WsServerMessage.ReactionAdded room_id message_id emoji
            user_id username reactions)] []
      | .error e => contOut st [.Error ("Failed to add reaction: " ++ e.display)] [] []
    | none => contOut st [] [] []
  | .RemoveReaction room_id message_id emoji =>
    match env.remove_reaction message_id user_id emoji with
    | .ok reactions =>
      contOut st []
        [(room_id, WsServerMessage.ReactionRemoved room_id message_id emoji
          user_id reactions)] []
    | .error e => contOut st [.Error ("Unable to remove reaction: " ++ e.display)] [] []
  | .PinMessage room_id message_id =>
    match env.pin_message room_id message_id user_id with
    | .ok pinned_at =>
      contOut st []
        [(room_id, WsServerMessage.MessagePinned room_id message_id user_id pinned_at)] []
    | .error e => contOut st [.Error ("Failed to pin message: " ++ e.display)] [] []
  | .UnpinMessage room_id message_id =>
    match env.unpin_message room_id message_id user_id with
    | .ok _ =>
      contOut st [] [(room_id, WsServerMessage.MessageUnpinned room_id message_id)] []
    | .error e => contOut st [.Error ("Failed to unpin message: " ++ e.display)] [] []
  | .GetPinnedMessages room_id =>
    match env.get_pinned_messages room_id with
    | .ok messages => contOut st [.PinnedMessages room_id messages] [] []
    | .error e =>
      contOut st [.Error ("Failed to get pinned messages: " ++ e.display)] [] []

/-- websocket.rs lines 338-963: dispatch of one parsed inbound command.
Authenticate is handled first in every state: success registers the
connection, emits Authenticated, restores the persisted rooms (one
RoomJoined each plus a PresenceChanged broadcast), and continues; failure
emits an Error event and breaks the loop.  Any other command on an
unauthenticated connection emits an Error event and continues with the
state unchanged; on an authenticated connection it is dispatched to
handleAuthed, all of whose branches continue. -/
def handle_client_message (env : WsEnv) (st : ConnState) (now : Nat) :
    WsClientMessage → StepOutcome
  | .Authenticate token =>
    match env.validate_session token with
    | .ok user =>
      let st2 : ConnState :=
        { auth_user_id := some user.id, auth_username := some user.username }
      match env.get_user_rooms user.id with
      | .ok user_rooms =>
        { toClient := .Authenticated user.id user.username ::
            user_rooms.map (fun room => .RoomJoined room.id room.name),
          roomSends := user_rooms.map (fun room =>
            (room.id, WsServerMessage.PresenceChanged user.id user.username .Online)),
          userSends := [], state := st2, action := .cont }
      | .error _ =>
        { toClient := [.Authenticated user.id user.username],
          roomSends := [], userSends := [], state := st2, action := .cont }
    | .error e =>
      { toClient := [.Error ("Authentication failed: " ++ e.display)],
        roomSends := [], userSends := [], state := st, action := .brk }
  | msg =>
    match st.auth_user_id with
    | none =>
      { toClient := [.Error "User not authenticated"], roomSends := [],
        userSends := [], state := st, action := .cont }
    | some user_id => handleAuthed env st now user_id msg

/-! Concrete example states used by witnesses and counterexamples. -/

/-- An empty store. -/
def exEmptyDB : DB :=
  { users := [], sessions := [], rooms := [], room_members := [],
    messages := [], mentions := [] }

/-- Example user alice. -/
def exAlice : User :=
  { id := "a", username := "alice", email := "alice@x.com", password_hash := "h",
    created_at := 0, last_login := none, presence := .Offline, status := none }

/-- Example user bob. -/
def exBob : User :=
  { id := "b", username := "bob", email := "bob@x.com", password_hash := "h",
    created_at := 0, last_login := none, presence := .Offline, status := none }

/-- Example room created by alice. -/
def exRoom : Room :=
  { id := "r", name := "General", desc := "", created_by := "a", created_at := 0 }

/-- Membership of alice in the example room. -/
def exMemA : RoomMember := { room_id := "r", user_id := "a", joined_at := 0 }

/-- Membership of bob in the example room. -/
def exMemB : RoomMember := { room_id := "r", user_id := "b", joined_at := 0 }

/-- Example session of alice expiring at time 5. -/
def exSession : Session :=
  { id := 1, user_id := "a", token := "tok", created_at := 0, expires_at := 5 }

/-- An example room message from alice, sent at time 1. -/
def exMsg1 : Message :=
  { id := "m1", sender_id := "a", message_type := .Room, room_id := some "r",
    receiver_id := none, content := "hello", sent_at := 1, read_at := none,
    is_read := false, is_edited := false, edited_at := none,
    reply_to_message_id := none, reactions := [], is_pinned := false,
    pinned_at := none, pinned_by := none }

/-- A second example room message from alice, sent at time 2. -/
def exMsg2 : Message := { exMsg1 with id := "m2", sent_at := 2 }

/-- A persisted mention of bob on message m1. -/
def exMention1 : Mention :=
  { id := "x1", message_id := "m1", mentioned_user_id := "b", is_read := false,
    notified_at := some 0, read_at := none, created_at := 0 }

/-- Store with alice and bob in the example room, no messages. -/
def exDb1 : DB :=
  { users := [exAlice, exBob], sessions := [], rooms := [exRoom],
    room_members := [exMemA, exMemB], messages := [], mentions := [] }

/-- Store with alice and her session. -/
def exDb3 : DB :=
  { users := [exAlice], sessions := [exSession], rooms := [], room_members := [],
    messages := [], mentions := [] }

/-- Store with two room messages and a persisted mention of bob on m1. -/
def exDb5 : DB :=
  { users := [exAlice, exBob], sessions := [], rooms := [exRoom],
    room_members := [exMemA, exMemB], messages := [exMsg1, exMsg2],
    mentions := [exMention1] }

/-- Store with a single unpinned room message. -/
def exDb6 : DB :=
  { users := [exAlice, exBob], sessions := [], rooms := [exRoom],
    room_members := [exMemA, exMemB], messages := [exMsg1], mentions := [] }

/-- A deterministic stand-in for the uuid generator. -/
def exGenId : Nat → String := fun n => "mn" ++ toString n

/-- A well-formed one-bucket reaction list. -/
def exReactions : List ReactionSummary :=
  [{ emoji := "+1", count := 1, user_ids := ["a"], usernames := ["alice"] }]

/-- Well-formedness of a reaction list: at most one bucket per emoji, no
duplicate user inside a bucket, count equal to the number of user ids, and
usernames parallel to user ids. -/
def ReactionListWF (l : List ReactionSummary) : Prop :=
  (l.map (fun r => r.emoji)).Nodup
  ∧ ∀ r ∈ l, r.user_ids.Nodup ∧ r.count = r.user_ids.length
      ∧ r.usernames.length = r.user_ids.length

/-- An oracle environment with trivial service results (validation always
fails, lists are empty). -/
def exEnv : WsEnv where
  validate_session := fun _ => .error .invalidSession
  update_user_presence := fun _ _ => .ok ()
  get_user_rooms := fun _ => .ok []
  get_room := fun _ => .ok none
  join_room_db := fun _ _ => .ok ()
  conn_join_room := fun _ _ => .ok ()
  conn_leave_room := fun _ _ => .ok ()
  leave_room_db := fun _ _ => .ok ()
  send_room_message := fun _ _ _ _ _ => .error .userNotFound
  send_room_announcement := fun _ _ _ => .error .userNotFound
  get_room_messages := fun _ _ _ => .ok []
  create_room := fun _ _ _ => .error .userNotFound
  get_all_rooms := .ok []
  edit_message := fun _ _ _ => .ok ()
  delete_message := fun _ _ => .ok ()
  update_user_status := fun _ _ => .ok ()
  get_room_members := fun _ => .ok []
  set_typing := fun _ _ _ => .ok ()
  get_typing_users := fun _ => []
  get_unread_mentions_count := fun _ => .ok 0
  mark_mention_as_read := fun _ _ => .ok ()
  mark_room_mentions_as_read := fun _ _ => .ok ()
  get_user_mentions := fun _ _ _ => .ok []
  add_reaction := fun _ _ _ _ => .ok []
  remove_reaction := fun _ _ _ => .ok []
  pin_message := fun _ _ _ => .ok 0
  unpin_message := fun _ _ _ => .ok ()
  get_pinned_messages := fun _ => .ok []
  is_connected := fun _ => false

/-! Theorems.  Each claim of the specification is settled by exactly one
theorem below; helper lemmas carry shared proof steps. -/

/-- Membership in an insertion step. -/
theorem mem_insertSorted (le : α → α → Bool) (a x : α) (l : List α) :
    x ∈ Database.insertSorted le a l ↔ x = a ∨ x ∈ l := by
  induction l with
  | nil => simp [Database.insertSorted]
  | cons b bs ih =>
    by_cases h : le a b
    · simp [Database.insertSorted, h]
    · simp only [Database.insertSorted, if_neg h, List.mem_cons, ih]
      tauto

/-- Membership in the sorted list. -/
theorem mem_sortBy (le : α → α → Bool) (x : α) (l : List α) :
    x ∈ Database.sortBy le l ↔ x ∈ l := by
  induction l with
  | nil => simp [Database.sortBy]
  | cons a as ih => simp [Database.sortBy, mem_insertSorted, ih]

/-- Inserting into a sorted list keeps it sorted, for a transitive and
total comparison. -/
theorem pairwise_insertSorted (le : α → α → Bool)
    (htrans : ∀ a b c, le a b = true → le b c = true → le a c = true)
    (htotal : ∀ a b, le a b = true ∨ le b a = true)
    (a : α) (l : List α) (h : l.Pairwise (fun x y => le x y = true)) :
    (Database.insertSorted le a l).Pairwise (fun x y => le x y = true) := by
  induction l with
  | nil => simp [Database.insertSorted]
  | cons b bs ih =>
    rcases List.pairwise_cons.mp h with ⟨hb, hbs⟩
    by_cases hab : le a b
    · rw [Database.insertSorted, if_pos hab]
      apply List.pairwise_cons.mpr
      refine ⟨?_, h⟩
      intro y hy
      rcases List.mem_cons.mp hy with rfl | hy2
      · exact hab
      · exact htrans a b y hab (hb y hy2)
    · rw [Database.insertSorted, if_neg hab]
      apply List.pairwise_cons.mpr
      constructor
      · intro y hy
        rcases (mem_insertSorted le a y bs).mp hy with heq | hy2
        · subst heq
          rcases htotal y b with h1 | h1
          · exact absurd h1 (by simpa using hab)
          · exact h1
        · exact hb y hy2
      · exact ih hbs

/-- The sort is sorted, for a transitive and total comparison. -/
theorem pairwise_sortBy (le : α → α → Bool)
    (htrans : ∀ a b c, le a b = true → le b c = true → le a c = true)
    (htotal : ∀ a b, le a b = true ∨ le b a = true)
    (l : List α) :
    (Database.sortBy le l).Pairwise (fun x y => le x y = true) := by
  induction l with
  | nil => simp [Database.sortBy]
  | cons a as ih => exact pairwise_insertSorted le htrans htotal a _ ih

/-- C9 counterexample: a request with the explicit limit 150 is paged with
limit 100, not 150, so an explicit limit n is not always used as the page
limit. -/
theorem private_page_limit_clamps_counterexample :
    MessageService.private_page_limit
        { with_user := none, limit := some 150, offset := some 0, unread_only := false }
      = 100
    ∧ (100 : Nat) ≠ 150 := by
  exact ⟨rfl, by decide⟩

/-- C9 amended: get_private_messages derives both paging parameters from
the limit field of the request: with an explicit limit n the page limit is
min n 100 and the page offset is n; with no limit the page limit is 50 and
the page offset is 0; the offset field of the request is never consulted. -/
theorem private_paging_uses_limit_field (db : DB) (user_id : String)
    (request : GetPrivateMessagesRequest) :
    (∀ n, request.limit = some n →
        MessageService.private_page_limit request = min n 100
      ∧ MessageService.private_page_offset request = n)
    ∧ (request.limit = none →
        MessageService.private_page_limit request = 50
      ∧ MessageService.private_page_offset request = 0)
    ∧ ∀ o, MessageService.get_private_messages db user_id { request with offset := o }
        = MessageService.get_private_messages db user_id request := by
  refine ⟨?_, ?_, ?_⟩
  · intro n hn
    simp [MessageService.private_page_limit, MessageService.private_page_offset, hn]
  · intro hn
    simp [MessageService.private_page_limit, MessageService.private_page_offset, hn]
  · intro o
    cases request
    rfl

/-- C9 witness: at a request with explicit limit 7 the page limit and the
page offset both come out as 7, and changing the offset field changes
nothing. -/
theorem private_paging_uses_limit_field_witness :
    MessageService.private_page_limit
        { with_user := none, limit := some 7, offset := some 3, unread_only := false } = 7
    ∧ MessageService.private_page_offset
        { with_user := none, limit := some 7, offset := some 3, unread_only := false } = 7
    ∧ MessageService.get_private_messages exEmptyDB "a"
        { with_user := none, limit := some 7, offset := some 99, unread_only := false }
      = MessageService.get_private_messages exEmptyDB "a"
        { with_user := none, limit := some 7, offset := some 3, unread_only := false } := by
  have h := private_paging_uses_limit_field exEmptyDB "a"
    { with_user := none, limit := some 7, offset := some 3, unread_only := false }
  refine ⟨?_, (h.1 7 rfl).2, h.2.2 (some 99)⟩
  have h7 := (h.1 7 rfl).1
  simpa using h7

/-- The add_reaction read-modify-write step is idempotent: once the user is
in the emoji bucket a repeated add changes nothing. -/
theorem addReactionUpdate_idem (l : List ReactionSummary) (uid uname e : String) :
    Database.addReactionUpdate (Database.addReactionUpdate l uid uname e) uid uname e
      = Database.addReactionUpdate l uid uname e := by
  induction l with
  | nil => simp [Database.addReactionUpdate]
  | cons r rest ih =>
    by_cases he : r.emoji == e
    · by_cases hu : uid ∈ r.user_ids
      · simp [Database.addReactionUpdate, he, hu]
      · simp [Database.addReactionUpdate, he, hu]
    · simp [Database.addReactionUpdate, he, ih]

/-- Finding a message by id commutes with the reaction write-back, which
does not touch ids. -/
theorem find?_reaction_update (l : List Message) (mid : String)
    (r1 : List ReactionSummary) :
    (l.map (fun msg => if msg.id == mid then { msg with reactions := r1 } else msg)).find?
        (fun m => m.id == mid)
      = (l.find? (fun m => m.id == mid)).map
          (fun msg => { msg with reactions := r1 }) := by
  have hp : ((fun (m : Message) => m.id == mid) ∘ fun (msg : Message) =>
      if msg.id == mid then { msg with reactions := r1 } else msg)
        = (fun (m : Message) => m.id == mid) := by
    funext msg
    by_cases h : msg.id = mid <;> simp [h]
  cases h : l.find? (fun m => m.id == mid) with
  | none => rw [List.find?_map, hp, h] ; rfl
  | some m =>
    have hm := List.find?_some h
    rw [List.find?_map, hp, h]
    simp only [Option.map_some']
    simp only [show (m.id == mid) = true from hm, if_true]

/-- Writing the same reaction list back twice is the same as writing it
once. -/
theorem reaction_update_map_idem (l : List Message) (mid : String)
    (r1 : List ReactionSummary) :
    ((l.map (fun msg => if msg.id == mid then { msg with reactions := r1 } else msg)).map
        (fun msg => if msg.id == mid then { msg with reactions := r1 } else msg))
      = l.map (fun msg => if msg.id == mid then { msg with reactions := r1 } else msg) := by
  rw [List.map_map]
  apply List.map_congr_left
  intro a _
  by_cases ha : a.id = mid <;> simp [ha]

/-- C2: add_reaction followed by remove_reaction never restores the
reaction list: remove_reaction always fails with the database error of its
misspelled SELECT keyword and leaves the store exactly as the add left it
(database.rs line 1013).  The second half of the claim holds: a repeated
add_reaction by the same user and emoji is a complete no-op, returning the
same store and the same reaction list. -/
theorem add_then_remove_reaction_broken (db : DB) (mid uid uname e : String) :
    Database.remove_reaction (Database.add_reaction db mid uid uname e).1 mid uid e
      = ((Database.add_reaction db mid uid uname e).1,
         .error (.database "near \"SELET\": syntax error"))
    ∧ Database.add_reaction (Database.add_reaction db mid uid uname e).1 mid uid uname e
      = Database.add_reaction db mid uid uname e := by
  constructor
  · rfl
  · cases h : db.messages.find? (fun m => m.id == mid) with
    | none =>
      simp [Database.add_reaction, h]
    | some m =>
      simp only [Database.add_reaction, h]
      rw [find?_reaction_update, h]
      simp only [Option.map_some']
      simp only [addReactionUpdate_idem, reaction_update_map_idem]

/-- C2 witness: on the concrete store holding message m1, adding a
thumbs-up as alice succeeds with a one-entry bucket, and the following
remove_reaction fails with the SELET database error. -/
theorem add_then_remove_reaction_broken_witness :
    (Database.add_reaction exDb6 "m1" "a" "alice" "+1").2
      = .ok [{ emoji := "+1", count := 1, user_ids := ["a"], usernames := ["alice"] }]
    ∧ (Database.remove_reaction (Database.add_reaction exDb6 "m1" "a" "alice" "+1").1
        "m1" "a" "+1").2
      = .error (.database "near \"SELET\": syntax error") := by
  refine ⟨rfl, ?_⟩
  have h := add_then_remove_reaction_broken exDb6 "m1" "a" "alice" "+1"
  rw [h.1]

/-- C3 counterexample: at the exact expiry instant (now equal to
expires_at) validation succeeds although now < expires_at is false: the
code expires a session only when expires_at is strictly before now
(network.rs line 122), so validity is not equivalent to now < expires_at. -/
theorem validate_session_boundary_counterexample :
    isSuccess (AuthService.validate_session exDb3 5 "tok").2 = true ∧ ¬ (5 < 5) :=
  ⟨rfl, by omega⟩

/-- After delete_session no session with the token remains. -/
theorem get_session_after_delete (db : DB) (token : String) :
    Database.get_session_by_token (Database.delete_session db token) token = none := by
  apply List.find?_eq_none.mpr
  intro s hs
  have hmem := (List.mem_filter.mp hs).2
  simp only [Bool.not_eq_true'] at hmem
  simp [hmem]

/-- C3 amended: validate_session succeeds exactly when a session with the
token exists, now ≤ expires_at (expiry is strict), and the session user
still exists; when the stored session has expires_at < now the call fails
InvalidSession and deletes the session, after which validation of that
token fails at every time. -/
theorem validate_session_characterization (db : DB) (now : Nat) (token : String) :
    (isSuccess (AuthService.validate_session db now token).2 = true ↔
      ∃ s, Database.get_session_by_token db token = some s ∧ now ≤ s.expires_at
        ∧ (Database.get_user_by_id db s.user_id).isSome = true)
    ∧ (∀ s, Database.get_session_by_token db token = some s → s.expires_at < now →
        (AuthService.validate_session db now token).2 = .error .invalidSession
      ∧ (AuthService.validate_session db now token).1 = Database.delete_session db token
      ∧ ∀ now2, isSuccess (AuthService.validate_session
          (Database.delete_session db token) now2 token).2 = false) := by
  constructor
  · cases h : Database.get_session_by_token db token with
    | none => simp [AuthService.validate_session, h, isSuccess]
    | some s =>
      by_cases hexp : s.expires_at < now
      · simp only [AuthService.validate_session, h, if_pos hexp]
        constructor
        · intro hfalse
          exact absurd hfalse (by simp [isSuccess])
        · rintro ⟨s2, hs2, hle, -⟩
          injection hs2 with hs2
          subst hs2
          exact absurd hle (by omega)
      · cases hu : Database.get_user_by_id db s.user_id with
        | none =>
          simp only [AuthService.validate_session, h, if_neg hexp, hu]
          constructor
          · intro hfalse
            exact absurd hfalse (by simp [isSuccess])
          · rintro ⟨s2, hs2, -, hsome⟩
            injection hs2 with hs2
            subst hs2
            rw [hu] at hsome
            simp at hsome
        | some u =>
          simp only [AuthService.validate_session, h, if_neg hexp, hu]
          constructor
          · intro _
            exact ⟨s, rfl, by omega, by rw [hu] ; rfl⟩
          · intro _
            rfl
  · intro s hs hexp
    refine ⟨?_, ?_, ?_⟩
    · simp [AuthService.validate_session, hs, hexp]
    · simp [AuthService.validate_session, hs, hexp]
    · intro now2
      simp [AuthService.validate_session, get_session_after_delete, isSuccess]

/-- C3 amended witness: at time 6 the example session (expiry 5) is
expired: validation fails InvalidSession, deletes the session, and a later
revalidation of the token fails as well. -/
theorem validate_session_characterization_witness :
    (AuthService.validate_session exDb3 6 "tok").2 = .error .invalidSession
    ∧ (AuthService.validate_session exDb3 6 "tok").1 = Database.delete_session exDb3 "tok"
    ∧ isSuccess (AuthService.validate_session
        (Database.delete_session exDb3 "tok") 7 "tok").2 = false := by
  have h := (validate_session_characterization exDb3 6 "tok").2 exSession rfl (by decide)
  exact ⟨h.1, h.2.1, h.2.2 7⟩

/-- Clearing already-clear pin fields is the identity on a message. -/
theorem clear_pin_eq_self (m : Message) (h1 : m.is_pinned = false)
    (h2 : m.pinned_at = none) (h3 : m.pinned_by = none) :
    { m with is_pinned := false, pinned_at := none, pinned_by := none } = m := by
  cases m
  simp_all

/-- Transitivity of the descending pinned_at comparison key. -/
theorem optTimeLe_trans {x y z : Option Nat} (h1 : Database.optTimeLe x y = true)
    (h2 : Database.optTimeLe y z = true) : Database.optTimeLe x z = true := by
  cases x <;> cases y <;> cases z <;> simp_all [Database.optTimeLe]
  omega

/-- Totality of the descending pinned_at comparison key. -/
theorem optTimeLe_total (x y : Option Nat) :
    (Database.optTimeLe x y || Database.optTimeLe y x) = true := by
  cases x <;> cases y <;> simp [Database.optTimeLe]
  omega

/-- C6: pin_message sets is_pinned, pinned_at and pinned_by on the target
message; unpin_message clears all three, and after a pin it restores an
initially unpinned store exactly; get_pinned_messages returns exactly the
currently pinned messages of the room, ordered by pinned_at descending
(the stated Pairwise relation says each entry's pinned_at is at least the
next one's, with NULL ordered last as SQLite does). -/
theorem pin_unpin_round_trip (db : DB) (now : Nat) (mid uid rid : String) :
    (∀ m ∈ (Database.pin_message db now mid uid).messages, m.id = mid →
        m.is_pinned = true ∧ m.pinned_at = some now ∧ m.pinned_by = some uid)
    ∧ (∀ m ∈ (Database.unpin_message db mid).messages, m.id = mid →
        m.is_pinned = false ∧ m.pinned_at = none ∧ m.pinned_by = none)
    ∧ ((∀ m ∈ db.messages, m.id = mid →
        m.is_pinned = false ∧ m.pinned_at = none ∧ m.pinned_by = none) →
        Database.unpin_message (Database.pin_message db now mid uid) mid = db)
    ∧ (∀ m, m ∈ Database.get_pinned_messages db rid ↔
        m ∈ db.messages ∧ m.room_id = some rid ∧ m.is_pinned = true)
    ∧ (Database.get_pinned_messages db rid).Pairwise
        (fun a b => Database.optTimeLe b.pinned_at a.pinned_at = true) := by
  refine ⟨?_, ?_, ?_, ?_, ?_⟩
  · intro m hm hid
    obtain ⟨m0, hm0, heq⟩ := List.mem_map.mp hm
    by_cases h0 : m0.id = mid
    · rw [if_pos (by simp [h0])] at heq
      subst heq
      simp
    · rw [if_neg (by simp [h0])] at heq
      subst heq
      exact absurd hid h0
  · intro m hm hid
    obtain ⟨m0, hm0, heq⟩ := List.mem_map.mp hm
    by_cases h0 : m0.id = mid
    · rw [if_pos (by simp [h0])] at heq
      subst heq
      simp
    · rw [if_neg (by simp [h0])] at heq
      subst heq
      exact absurd hid h0
  · intro hclear
    cases db with
    | mk us ss rs rms ms mns =>
      simp only [Database.pin_message, Database.unpin_message, List.map_map]
      simp only [DB.mk.injEq, and_true, true_and]
      have : ∀ m ∈ ms, ((fun m2 =>
          if m2.id == mid then
            { m2 with is_pinned := false, pinned_at := none, pinned_by := none }
          else m2) ∘ (fun m2 =>
          if m2.id == mid then
            { m2 with is_pinned := true, pinned_at := some now, pinned_by := some uid }
          else m2)) m = id m := by
        intro m hm
        by_cases h0 : m.id = mid
        · simp only [Function.comp_apply, if_pos (by simp [h0] : (m.id == mid) = true)]
          obtain ⟨h1, h2, h3⟩ := hclear m hm h0
          exact clear_pin_eq_self m h1 h2 h3
        · simp only [Function.comp_apply, if_neg (by simp [h0] : ¬ (m.id == mid) = true)]
          rfl
      rw [List.map_congr_left this, List.map_id]
  · intro m
    simp [Database.get_pinned_messages, mem_sortBy, List.mem_filter, and_assoc]
  · have h := pairwise_sortBy Database.pinnedAtDesc
      (fun a b c h1 h2 => optTimeLe_trans h2 h1)
      (fun a b => Bool.or_eq_true_iff.mp (optTimeLe_total b.pinned_at a.pinned_at))
      (db.messages.filter (fun m => m.room_id == some rid && m.is_pinned))
    exact h.imp (fun hab => hab)

/-- C6 witness: pinning the initially unpinned message m1 at time 9 and
unpinning it restores the example store exactly. -/
theorem pin_unpin_round_trip_witness :
    Database.unpin_message (Database.pin_message exDb6 9 "m1" "a") "m1" = exDb6 :=
  (pin_unpin_round_trip exDb6 9 "m1" "a" "r").2.2.1 (by decide)

/-- The emoji column of an updated reaction list: unchanged when a bucket
for the emoji existed, extended by the new emoji otherwise. -/
theorem addReactionUpdate_emojis (l : List ReactionSummary) (uid uname e : String) :
    (Database.addReactionUpdate l uid uname e).map (fun r => r.emoji)
      = if e ∈ l.map (fun r => r.emoji) then l.map (fun r => r.emoji)
        else l.map (fun r => r.emoji) ++ [e] := by
  induction l with
  | nil => simp [Database.addReactionUpdate]
  | cons r rest ih =>
    by_cases he : r.emoji = e
    · simp only [Database.addReactionUpdate,
        if_pos (by simp [he] : (r.emoji == e) = true)]
      by_cases hu : uid ∈ r.user_ids
      · simp [hu, he]
      · simp [hu, he]
    · simp only [Database.addReactionUpdate,
        if_neg (by simp [he] : ¬ (r.emoji == e) = true)]
      simp only [List.map_cons]
      rw [ih]
      by_cases hmem : e ∈ rest.map (fun r => r.emoji)
      · simp [hmem, Ne.symm he]
      · simp [hmem, Ne.symm he]

/-- Bucket-local well-formedness is preserved by the add step. -/
theorem addReactionUpdate_buckets (l : List ReactionSummary) (uid uname e : String)
    (h : ∀ r ∈ l, r.user_ids.Nodup ∧ r.count = r.user_ids.length
        ∧ r.usernames.length = r.user_ids.length) :
    ∀ r2 ∈ Database.addReactionUpdate l uid uname e,
      r2.user_ids.Nodup ∧ r2.count = r2.user_ids.length
        ∧ r2.usernames.length = r2.user_ids.length := by
  induction l with
  | nil =>
    intro r2 hr2
    simp only [Database.addReactionUpdate, List.mem_singleton] at hr2
    subst hr2
    simp
  | cons r rest ih =>
    intro r2 hr2
    by_cases he : r.emoji = e
    · rw [Database.addReactionUpdate, if_pos (by simp [he])] at hr2
      rcases List.mem_cons.mp hr2 with hhead | htail
      · by_cases hu : uid ∈ r.user_ids
        · rw [if_pos hu] at hhead
          subst hhead
          exact h _ (List.mem_cons_self _ rest)
        · rw [if_neg hu] at hhead
          subst hhead
          obtain ⟨hn, hc, hl⟩ := h r (List.mem_cons_self r rest)
          refine ⟨?_, ?_, ?_⟩
          · simp [List.nodup_append, hn, hu]
          · simp [hc]
          · simp [hl]
      · exact h r2 (List.mem_cons_of_mem r htail)
    · rw [Database.addReactionUpdate, if_neg (by simp [he])] at hr2
      rcases List.mem_cons.mp hr2 with hhead | htail
      · subst hhead
        exact h r2 (List.mem_cons_self r2 rest)
      · exact ih (fun r3 h3 => h r3 (List.mem_cons_of_mem r h3)) r2 htail

/-- The full add step preserves reaction-list well-formedness. -/
theorem addReactionUpdate_wf (l : List ReactionSummary) (uid uname e : String)
    (h : ReactionListWF l) :
    ReactionListWF (Database.addReactionUpdate l uid uname e) := by
  obtain ⟨h1, h2⟩ := h
  refine ⟨?_, addReactionUpdate_buckets l uid uname e h2⟩
  rw [addReactionUpdate_emojis]
  by_cases hmem : e ∈ l.map (fun r => r.emoji)
  · simpa [hmem] using h1
  · simp [hmem, List.nodup_append, h1]

/-- Erasing at the index of the first match equals erasing the first
occurrence of the value. -/
theorem findIdx_eraseIdx_eq_erase (uid : String) :
    ∀ (ids : List String) (pos : Nat),
      ids.findIdx? (fun i => i == uid) = some pos →
      ids.eraseIdx pos = ids.erase uid := by
  intro ids
  induction ids with
  | nil => intro pos h; simp at h
  | cons x xs ih =>
    intro pos h
    rw [List.findIdx?_cons] at h
    by_cases hx : (x == uid) = true
    · rw [if_pos hx] at h
      injection h with h
      subst h
      simp [List.erase_cons, hx]
    · rw [if_neg hx] at h
      rw [List.findIdx?_succ] at h
      cases h2 : xs.findIdx? (fun i => i == uid) with
      | none => rw [h2] at h; simp at h
      | some pos2 =>
        rw [h2] at h
        simp only [Option.map_some'] at h
        injection h with h
        subst h
        simp [List.erase_cons, hx, ih pos2 h2]

/-- The remove step keeps the emoji of every bucket it rewrites. -/
theorem removeBucket_emoji (uid e : String) (r : ReactionSummary) :
    ((if r.emoji == e then
        match r.user_ids.findIdx? (fun i => i == uid) with
        | some pos =>
          { r with user_ids := r.user_ids.eraseIdx pos,
                   usernames := r.usernames.eraseIdx pos,
                   count := r.count - 1 }
        | none => r
      else r) : ReactionSummary).emoji = r.emoji := by
  by_cases he : (r.emoji == e) = true
  · rw [if_pos he]
    cases r.user_ids.findIdx? (fun i => i == uid) <;> rfl
  · rw [if_neg he]

/-- The remove step preserves reaction-list well-formedness. -/
theorem removeReactionUpdate_wf (l : List ReactionSummary) (uid e : String)
    (h : ReactionListWF l) :
    ReactionListWF (Database.removeReactionUpdate l uid e) := by
  obtain ⟨h1, h2⟩ := h
  constructor
  · have hsub : (Database.removeReactionUpdate l uid e).map (fun r => r.emoji)
        |>.Sublist ((l.map (fun r => if r.emoji == e then
            match r.user_ids.findIdx? (fun i => i == uid) with
            | some pos =>
              { r with user_ids := r.user_ids.eraseIdx pos,
                       usernames := r.usernames.eraseIdx pos,
                       count := r.count - 1 }
            | none => r
          else r)).map (fun r => r.emoji)) := by
      exact List.Sublist.map _ (List.filter_sublist _)
    have heq : ((l.map (fun r => if r.emoji == e then
        match r.user_ids.findIdx? (fun i => i == uid) with
        | some pos =>
          { r with user_ids := r.user_ids.eraseIdx pos,
                   usernames := r.usernames.eraseIdx pos,
                   count := r.count - 1 }
        | none => r
      else r)).map (fun r => r.emoji)) = l.map (fun r => r.emoji) := by
      rw [List.map_map]
      apply List.map_congr_left
      intro r _
      exact removeBucket_emoji uid e r
    rw [heq] at hsub
    exact h1.sublist hsub
  · intro r2 hr2
    have hr2m := List.mem_of_mem_filter hr2
    obtain ⟨r0, hr0, heq⟩ := List.mem_map.mp hr2m
    by_cases he : (r0.emoji == e) = true
    · rw [if_pos he] at heq
      cases hfi : r0.user_ids.findIdx? (fun i => i == uid) with
      | none =>
        rw [hfi] at heq
        subst heq
        exact h2 r0 hr0
      | some pos =>
        rw [hfi] at heq
        subst heq
        obtain ⟨hn, hc, hl⟩ := h2 r0 hr0
        have hlt : pos < r0.user_ids.length :=
          (List.findIdx?_eq_some_iff_findIdx_eq.mp hfi).1
        refine ⟨hn.sublist (List.eraseIdx_sublist _ _), ?_, ?_⟩
        · simp only [List.length_eraseIdx_of_lt hlt]
          omega
        · rw [List.length_eraseIdx_of_lt hlt, List.length_eraseIdx_of_lt (by omega)]
          omega
    · rw [if_neg he] at heq
      subst heq
      exact h2 r0 hr0

/-- C10: starting from a well-formed reaction list, the add step of
add_reaction and the read-modify-write step of remove_reaction both return
well-formed lists, the remove step leaves no zero-count bucket and deletes
the emoji bucket exactly when its decremented count reaches zero, and a
successful add_reaction persists only well-formed lists.  remove_reaction
itself never persists anything: its misspelled SELECT makes it fail on
every input (final conjunct; the spec describes the dead code after the
query). -/
theorem reaction_wellformedness_invariant (l : List ReactionSummary)
    (db : DB) (mid uid uname e : String) (h : ReactionListWF l) :
    ReactionListWF (Database.addReactionUpdate l uid uname e)
    ∧ ReactionListWF (Database.removeReactionUpdate l uid e)
    ∧ (∀ r2 ∈ Database.removeReactionUpdate l uid e, 0 < r2.count)
    ∧ (∀ r ∈ l, r.emoji = e → uid ∈ r.user_ids →
        (r.count = 1 → ∀ r2 ∈ Database.removeReactionUpdate l uid e, r2.emoji ≠ e)
      ∧ (1 < r.count → ∃ r2 ∈ Database.removeReactionUpdate l uid e,
          r2.emoji = e ∧ r2.count = r.count - 1
            ∧ r2.user_ids = r.user_ids.erase uid))
    ∧ ((∀ m ∈ db.messages, ReactionListWF m.reactions) →
        ∀ m ∈ (Database.add_reaction db mid uid uname e).1.messages,
          ReactionListWF m.reactions)
    ∧ Database.remove_reaction db mid uid e
        = (db, .error (.database "near \"SELET\": syntax error")) := by
  refine ⟨addReactionUpdate_wf l uid uname e h, removeReactionUpdate_wf l uid e h,
    ?_, ?_, ?_, rfl⟩
  · intro r2 hr2
    have := (List.mem_filter.mp hr2).2
    simpa using this
  · intro r hr hemoji huid
    have hfound : ∃ pos, r.user_ids.findIdx? (fun i => i == uid) = some pos := by
      have hsome : (r.user_ids.findIdx? (fun i => i == uid)).isSome = true := by
        rw [List.findIdx?_isSome]
        exact List.any_eq_true.mpr ⟨uid, huid, by simp⟩
      exact Option.isSome_iff_exists.mp hsome
    obtain ⟨pos, hpos⟩ := hfound
    constructor
    · intro hcount r2 hr2 hr2e
      have hr2m := List.mem_of_mem_filter hr2
      obtain ⟨r0, hr0, heq⟩ := List.mem_map.mp hr2m
      have hr0e : r0.emoji = e := by
        rw [← hr2e, ← heq]
        exact (removeBucket_emoji uid e r0).symm
      have hrr : r0 = r := by
        apply List.inj_on_of_nodup_map h.1 hr0 hr
        show r0.emoji = r.emoji
        rw [hr0e, hemoji]
      subst hrr
      have hpos2 := (List.mem_filter.mp hr2).2
      rw [← heq] at hpos2
      rw [if_pos (by simp [hr0e]), hpos] at hpos2
      simp only [decide_eq_true_eq] at hpos2
      omega
    · intro hcount
      refine ⟨{ r with user_ids := r.user_ids.eraseIdx pos, usernames := r.usernames.eraseIdx pos, count := r.count - 1 }, ?_, ?_, ?_, ?_⟩
      · apply List.mem_filter.mpr
        constructor
        · apply List.mem_map.mpr
          refine ⟨r, hr, ?_⟩
          rw [if_pos (by simp [hemoji]), hpos]
        · simp only [decide_eq_true_eq]
          omega
      · simpa using hemoji
      · rfl
      · simpa using findIdx_eraseIdx_eq_erase uid r.user_ids pos hpos
  · intro hmsg m2 hm2
    cases hfind : db.messages.find? (fun m => m.id == mid) with
    | none =>
      rw [Database.add_reaction, hfind] at hm2
      exact hmsg m2 hm2
    | some m0 =>
      rw [Database.add_reaction, hfind] at hm2
      simp only [List.mem_map] at hm2
      obtain ⟨m1, hm1, heq⟩ := hm2
      by_cases hid : (m1.id == mid) = true
      · rw [if_pos hid] at heq
        subst heq
        exact addReactionUpdate_wf m0.reactions uid uname e
          (hmsg m0 (List.mem_of_find?_eq_some hfind))
      · rw [if_neg hid] at heq
        subst heq
        exact hmsg m1 hm1

/-- C10 witness: removing the only reactor of the one-bucket example list
deletes the bucket entirely, and adding a second user to it keeps the list
well-formed. -/
theorem reaction_wellformedness_invariant_witness :
    Database.removeReactionUpdate exReactions "a" "+1" = []
    ∧ ReactionListWF (Database.addReactionUpdate exReactions "b" "bob" "+1") := by
  constructor
  · rfl
  · exact (reaction_wellformedness_invariant exReactions exDb6 "m1" "b" "bob" "+1"
      ⟨by decide, by decide⟩).1

/-- The at-everyone loop notifies exactly the member ids other than the
sender, in member order. -/
theorem mentionLoopEveryone_ids (message_id sender_id : String) (now : Nat)
    (genId : Nat → String) :
    ∀ (members : List User) (db : DB) (k : Nat),
      (Database.mentionLoopEveryone message_id sender_id now genId members db k).2
        = (members.filter (fun m => !(m.id == sender_id))).map (fun m => m.id) := by
  intro members
  induction members with
  | nil => intro db k; rfl
  | cons m rest ih =>
    intro db k
    by_cases hm : m.id = sender_id
    · rw [Database.mentionLoopEveryone, if_neg (fun hne => hne hm)]
      simp [List.filter_cons, hm, ih]
    · rw [Database.mentionLoopEveryone, if_pos hm]
      simp [List.filter_cons, hm, ih]

/-- The rows the at-everyone loop appends carry the notified user ids in
order and all reference the message. -/
theorem mentionLoopEveryone_rows (message_id sender_id : String) (now : Nat)
    (genId : Nat → String) :
    ∀ (members : List User) (db : DB) (k : Nat),
      ∃ rows,
        (Database.mentionLoopEveryone message_id sender_id now genId members db k).1.mentions
          = db.mentions ++ rows
        ∧ rows.map (fun mn => mn.mentioned_user_id)
          = (Database.mentionLoopEveryone message_id sender_id now genId members db k).2
        ∧ ∀ mn ∈ rows, mn.message_id = message_id := by
  intro members
  induction members with
  | nil => intro db k; exact ⟨[], by simp [Database.mentionLoopEveryone], rfl, by simp⟩
  | cons m rest ih =>
    intro db k
    by_cases hm : m.id = sender_id
    · rw [Database.mentionLoopEveryone, if_neg (fun hne => hne hm)]
      exact ih db k
    · rw [Database.mentionLoopEveryone, if_pos hm]
      obtain ⟨rows2, h1, h2, h3⟩ :=
        ih (Database.insertMention db (genId k) message_id m.id now) (k + 1)
      refine ⟨{ id := genId k, message_id := message_id, mentioned_user_id := m.id, is_read := false, notified_at := some now, read_at := none, created_at := now } :: rows2, ?_, ?_, ?_⟩
      · rw [h1]
        simp [Database.insertMention]
      · simp [h2]
      · intro mn hmn
        rcases List.mem_cons.mp hmn with heq | h
        · rw [heq]
        · exact h3 mn h

/-- The username loop notifies exactly the ids of resolved non-sender
users, one entry per occurrence, in order. -/
theorem mentionLoopNames_ids (db0 : DB) (message_id sender_id : String) (now : Nat)
    (genId : Nat → String) :
    ∀ (names : List String) (db : DB) (k : Nat),
      (Database.mentionLoopNames db0 message_id sender_id now genId names db k).2
        = names.filterMap (fun name =>
            match Database.get_user_by_username db0 name with
            | some user => if user.id ≠ sender_id then some user.id else none
            | none => none) := by
  intro names
  induction names with
  | nil => intro db k; rfl
  | cons name rest ih =>
    intro db k
    cases hu : Database.get_user_by_username db0 name with
    | none =>
      simp only [Database.mentionLoopNames, hu]
      simp [List.filterMap_cons, hu, ih]
    | some user =>
      by_cases hs : user.id = sender_id
      · simp only [Database.mentionLoopNames, hu]
        rw [if_neg (fun hne => hne hs)]
        simp [List.filterMap_cons, hu, hs, ih]
      · simp only [Database.mentionLoopNames, hu]
        rw [if_pos hs]
        simp [List.filterMap_cons, hu, hs, ih]

/-- The rows the username loop appends carry the notified user ids in
order and all reference the message. -/
theorem mentionLoopNames_rows (db0 : DB) (message_id sender_id : String) (now : Nat)
    (genId : Nat → String) :
    ∀ (names : List String) (db : DB) (k : Nat),
      ∃ rows,
        (Database.mentionLoopNames db0 message_id sender_id now genId names db k).1.mentions
          = db.mentions ++ rows
        ∧ rows.map (fun mn => mn.mentioned_user_id)
          = (Database.mentionLoopNames db0 message_id sender_id now genId names db k).2
        ∧ ∀ mn ∈ rows, mn.message_id = message_id := by
  intro names
  induction names with
  | nil => intro db k; exact ⟨[], by simp [Database.mentionLoopNames], rfl, by simp⟩
  | cons name rest ih =>
    intro db k
    cases hu : Database.get_user_by_username db0 name with
    | none =>
      simp only [Database.mentionLoopNames, hu]
      exact ih db k
    | some user =>
      by_cases hs : user.id = sender_id
      · simp only [Database.mentionLoopNames, hu]
        rw [if_neg (fun hne => hne hs)]
        exact ih db k
      · simp only [Database.mentionLoopNames, hu]
        rw [if_pos hs]
        obtain ⟨rows2, h1, h2, h3⟩ :=
          ih (Database.insertMention db (genId k) message_id user.id now) (k + 1)
        refine ⟨{ id := genId k, message_id := message_id, mentioned_user_id := user.id, is_read := false, notified_at := some now, read_at := none, created_at := now } :: rows2, ?_, ?_, ?_⟩
        · rw [h1]
          simp [Database.insertMention]
        · simp [h2]
        · intro mn hmn
          rcases List.mem_cons.mp hmn with heq | h
          · rw [heq]
          · exact h3 mn h

/-- C4: mention extraction.  When the content contains at-everyone
(case-insensitive substring containment, exactly as the code tests it),
the notified set is every current room member except the sender, and one
mention row per notified id is appended; otherwise a user is notified
exactly when some extracted at-token resolves to that user and the user is
not the sender (unknown names resolve to nothing and are dropped); the
sender is never notified. -/
theorem mention_extraction_characterization (db : DB) (genId : Nat → String)
    (message_id sender_id content room_id : String) (now : Nat) :
    (Database.everyone_mentioned content = true →
      ∀ uid, uid ∈ (Database.save_message_mentions db genId message_id sender_id content room_id now).2
        ↔ ((∃ u ∈ Database.get_room_members db room_id, u.id = uid) ∧ uid ≠ sender_id))
    ∧ (Database.everyone_mentioned content = false →
      ∀ uid, uid ∈ (Database.save_message_mentions db genId message_id sender_id content room_id now).2
        ↔ ∃ name ∈ Database.extract_mentions content, ∃ u,
            Database.get_user_by_username db name = some u ∧ u.id = uid ∧ uid ≠ sender_id)
    ∧ sender_id ∉ (Database.save_message_mentions db genId message_id sender_id content room_id now).2
    ∧ ∃ rows,
        (Database.save_message_mentions db genId message_id sender_id content room_id now).1.mentions
          = db.mentions ++ rows
        ∧ rows.map (fun mn => mn.mentioned_user_id)
          = (Database.save_message_mentions db genId message_id sender_id content room_id now).2
        ∧ ∀ mn ∈ rows, mn.message_id = message_id := by
  by_cases hev : Database.everyone_mentioned content
  · refine ⟨?_, ?_, ?_, ?_⟩
    · intro _ uid
      rw [Database.save_message_mentions, if_pos hev, mentionLoopEveryone_ids]
      simp only [List.mem_map, List.mem_filter, Bool.not_eq_eq_eq_not, Bool.not_true,
        beq_eq_false_iff_ne, ne_eq]
      constructor
      · rintro ⟨u, ⟨hu, hne⟩, hid⟩
        subst hid
        exact ⟨⟨u, hu, rfl⟩, hne⟩
      · rintro ⟨⟨u, hu, hid⟩, hne⟩
        subst hid
        exact ⟨u, ⟨hu, hne⟩, rfl⟩
    · intro hfalse
      exact absurd hev (by simp [hfalse])
    · rw [Database.save_message_mentions, if_pos hev, mentionLoopEveryone_ids]
      intro hmem
      obtain ⟨u, hu, hid⟩ := List.mem_map.mp hmem
      have := (List.mem_filter.mp hu).2
      rw [hid] at this
      simp at this
    · rw [Database.save_message_mentions, if_pos hev]
      exact mentionLoopEveryone_rows message_id sender_id now genId
        (Database.get_room_members db room_id) db 0
  · have hev2 : Database.everyone_mentioned content = false := by simpa using hev
    refine ⟨?_, ?_, ?_, ?_⟩
    · intro htrue
      exact absurd htrue (by simp [hev2])
    · intro _ uid
      rw [Database.save_message_mentions, if_neg hev, mentionLoopNames_ids]
      rw [List.mem_filterMap]
      constructor
      · rintro ⟨name, hname, hres⟩
        cases hu : Database.get_user_by_username db name with
        | none =>
          simp only [hu] at hres
          exact absurd hres (by simp)
        | some user =>
          simp only [hu] at hres
          by_cases hs : user.id = sender_id
          · rw [if_neg (fun hne => hne hs)] at hres
            exact absurd hres (by simp)
          · rw [if_pos hs] at hres
            injection hres with hres
            exact ⟨name, hname, user, hu, hres, hres ▸ hs⟩
      · rintro ⟨name, hname, user, hu, hid, hne⟩
        refine ⟨name, hname, ?_⟩
        simp only [hu]
        rw [if_pos (hid ▸ hne), hid]
    · rw [Database.save_message_mentions, if_neg hev, mentionLoopNames_ids]
      intro hmem
      obtain ⟨name, _, hres⟩ := List.mem_filterMap.mp hmem
      cases hu : Database.get_user_by_username db name with
      | none =>
        simp only [hu] at hres
        exact absurd hres (by simp)
      | some user =>
        simp only [hu] at hres
        by_cases hs : user.id = sender_id
        · rw [if_neg (fun hne => hne hs)] at hres
          exact absurd hres (by simp)
        · rw [if_pos hs] at hres
          injection hres with hres
          exact hs hres
    · rw [Database.save_message_mentions, if_neg hev]
      exact mentionLoopNames_rows db message_id sender_id now genId
        (Database.extract_mentions content) db 0

/-- C4 witness: in the example room, the message at-everyone from alice
notifies bob and never alice herself. -/
theorem mention_extraction_characterization_witness :
    "b" ∈ (Database.save_message_mentions exDb1 exGenId "m1" "a" "hi @everyone" "r" 3).2
    ∧ "a" ∉ (Database.save_message_mentions exDb1 exGenId "m1" "a" "hi @everyone" "r" 3).2 := by
  have h := mention_extraction_characterization exDb1 exGenId "m1" "a" "hi @everyone" "r" 3
  exact ⟨(h.1 (by decide) "b").mpr (by decide), h.2.2.1⟩

/-- C7 counterexample: a message whose content names bob twice inserts two
mention rows for the pair (m1, b), so a Mention row is not created at most
once per (message, user) pair. -/
theorem duplicate_mention_rows_counterexample :
    ((Database.save_message_mentions exDb1 exGenId "m1" "a" "@bob @bob" "r" 3).1.mentions.countP
      (fun mn => mn.message_id == "m1" && mn.mentioned_user_id == "b")) = 2 := by
  decide

/-- Counting a value among the results of filterMap counts the inputs that
map to it. -/
theorem count_filterMap_eq_countP (g : α → Option String) (l : List α) (b : String) :
    (l.filterMap g).count b = l.countP (fun a => g a == some b) := by
  induction l with
  | nil => rfl
  | cons x xs ih =>
    cases hx : g x with
    | none => simp [List.filterMap_cons, hx, List.countP_cons, ih]
    | some y =>
      simp [List.filterMap_cons, hx, List.countP_cons, List.count_cons, ih]

/-- Counting rows of one message and user among rows that all belong to
the message counts the user among the notified ids. -/
theorem countP_rows_eq_count (rows : List Mention) (message_id uid : String)
    (hmsg : ∀ mn ∈ rows, mn.message_id = message_id) :
    rows.countP (fun mn => mn.message_id == message_id && mn.mentioned_user_id == uid)
      = (rows.map (fun mn => mn.mentioned_user_id)).count uid := by
  induction rows with
  | nil => rfl
  | cons mn rest ih =>
    have hm := hmsg mn (List.mem_cons_self mn rest)
    rw [List.countP_cons, List.map_cons, List.count_cons,
      ih (fun mn2 h2 => hmsg mn2 (List.mem_cons_of_mem mn h2))]
    simp [hm]

/-- C7 amended: at send time the number of fresh Mention rows for a
(message, user) pair equals the number of times that user id was notified;
in the at-everyone branch this is at most one per distinct member, while
in the username branch it is one per occurrence of a token resolving to
that non-sender user, so repeated tokens create duplicate rows. -/
theorem mention_rows_per_occurrence (db : DB) (genId : Nat → String)
    (message_id sender_id content room_id : String) (now : Nat) (uid : String)
    (hfresh : ∀ mn ∈ db.mentions, mn.message_id ≠ message_id) :
    ((Database.save_message_mentions db genId message_id sender_id content room_id now).1.mentions.countP
        (fun mn => mn.message_id == message_id && mn.mentioned_user_id == uid))
      = (Database.save_message_mentions db genId message_id sender_id content room_id now).2.count uid
    ∧ (Database.everyone_mentioned content = true →
        ((Database.get_room_members db room_id).map (fun u => u.id)).Nodup →
        (Database.save_message_mentions db genId message_id sender_id content room_id now).2.count uid ≤ 1)
    ∧ (Database.everyone_mentioned content = false →
        (Database.save_message_mentions db genId message_id sender_id content room_id now).2.count uid
          = (Database.extract_mentions content).countP (fun name =>
              match Database.get_user_by_username db name with
              | some user => user.id == uid && !(user.id == sender_id)
              | none => false)) := by
  refine ⟨?_, ?_, ?_⟩
  · have hrows : ∃ rows,
        (Database.save_message_mentions db genId message_id sender_id content room_id now).1.mentions
          = db.mentions ++ rows
        ∧ rows.map (fun mn => mn.mentioned_user_id)
          = (Database.save_message_mentions db genId message_id sender_id content room_id now).2
        ∧ ∀ mn ∈ rows, mn.message_id = message_id := by
      by_cases hev : Database.everyone_mentioned content
      · rw [Database.save_message_mentions, if_pos hev]
        exact mentionLoopEveryone_rows message_id sender_id now genId
          (Database.get_room_members db room_id) db 0
      · rw [Database.save_message_mentions, if_neg hev]
        exact mentionLoopNames_rows db message_id sender_id now genId
          (Database.extract_mentions content) db 0
    obtain ⟨rows, h1, h2, h3⟩ := hrows
    rw [h1, List.countP_append, ← h2, ← countP_rows_eq_count rows message_id uid h3]
    have hzero : db.mentions.countP
        (fun mn => mn.message_id == message_id && mn.mentioned_user_id == uid) = 0 := by
      apply List.countP_eq_zero.mpr
      intro mn hmn
      simp [hfresh mn hmn]
    rw [hzero, Nat.zero_add]
  · intro hev hnodup
    rw [Database.save_message_mentions, if_pos hev, mentionLoopEveryone_ids]
    have hle : ((((Database.get_room_members db room_id).filter
          (fun m => !(m.id == sender_id))).map (fun m => m.id)).count uid)
        ≤ (((Database.get_room_members db room_id).map (fun m => m.id)).count uid) :=
      List.Sublist.count_le (List.Sublist.map _ (List.filter_sublist _)) uid
    exact le_trans hle (List.nodup_iff_count_le_one.mp hnodup uid)
  · intro hev
    rw [Database.save_message_mentions, if_neg (by simp [hev]), mentionLoopNames_ids,
      count_filterMap_eq_countP]
    apply List.countP_congr
    intro name _
    cases hu : Database.get_user_by_username db name with
    | none => simp
    | some user =>
      simp only []
      by_cases hs : user.id = sender_id
      · rw [if_neg (fun hne => hne hs)]
        simp [hs]
      · rw [if_pos hs]
        simp [hs]

/-- C7 amended witness: in the concrete store, sending at-bob twice yields
exactly the row-count equality of the theorem (two rows, two notified
entries). -/
theorem mention_rows_per_occurrence_witness :
    ((Database.save_message_mentions exDb1 exGenId "m1" "a" "@bob @bob" "r" 3).1.mentions.countP
        (fun mn => mn.message_id == "m1" && mn.mentioned_user_id == "b"))
      = (Database.save_message_mentions exDb1 exGenId "m1" "a" "@bob @bob" "r" 3).2.count "b"
    ∧ (Database.save_message_mentions exDb1 exGenId "m1" "a" "@bob @bob" "r" 3).2.count "b" = 2 := by
  have h := mention_rows_per_occurrence exDb1 exGenId "m1" "a" "@bob @bob" "r" 3 "b"
    (by decide)
  exact ⟨h.1, by decide⟩

/-- C1: with syntactically valid content (not all whitespace, at most
10000 UTF-8 bytes), no reply target, and a store whose room_members rows
reference existing room and user rows (the schema's foreign keys),
send_room_message succeeds exactly when the sender holds a persisted
membership of the room; without the membership it fails with the
invalid-input membership error, and since every failure path in the source
precedes the first INSERT, an error return leaves the store untouched (the
embedding returns no store on error for exactly that reason). -/
theorem send_room_message_iff_membership (db : DB) (now : Nat)
    (messageId : String) (genId : Nat → String) (sender_id : String)
    (request : SendRoomMessageRequest)
    (hcontent : Database.trimIsEmpty request.content = false
      ∧ Database.utf8Len request.content ≤ 10000)
    (hreply : request.reply_to_message_id = none)
    (hwf : ∀ rm ∈ db.room_members,
      (∃ r ∈ db.rooms, r.id = rm.room_id) ∧ ∃ u ∈ db.users, u.id = rm.user_id) :
    (isSuccess (MessageService.send_room_message db now messageId genId sender_id request) = true
      ↔ Database.is_user_in_room db request.room_id sender_id = true)
    ∧ (Database.is_user_in_room db request.room_id sender_id = false →
      MessageService.send_room_message db now messageId genId sender_id request
        = .error (.invalidInput "You are not a member of this room")) := by
  have hval : MessageService.validate_message_content request.content = .ok () := by
    rw [MessageService.validate_message_content, if_neg (by simp [hcontent.1]),
      if_neg (by omega)]
  by_cases hmem : Database.is_user_in_room db request.room_id sender_id
  · have h0 : 0 < db.room_members.countP
        (fun rm => rm.room_id == request.room_id && rm.user_id == sender_id) := by
      simpa [Database.is_user_in_room] using hmem
    obtain ⟨rm, hrm, hrmp⟩ := List.countP_pos_iff.mp h0
    simp only [Bool.and_eq_true, beq_iff_eq] at hrmp
    obtain ⟨⟨room, hroomMem, hroomId⟩, _⟩ := hwf rm hrm
    obtain ⟨_, ⟨user, huserMem, huserId⟩⟩ := hwf rm hrm
    have hfind : (Database.get_room_by_id db request.room_id).isSome = true := by
      rw [Database.get_room_by_id, List.find?_isSome]
      exact ⟨room, hroomMem, by simp [hroomId, hrmp.1]⟩
    obtain ⟨room2, hroom2⟩ := Option.isSome_iff_exists.mp hfind
    have hufind : (Database.get_user_by_id db sender_id).isSome = true := by
      rw [Database.get_user_by_id, List.find?_isSome]
      exact ⟨user, huserMem, by simp [huserId, hrmp.2]⟩
    obtain ⟨user2, huser2⟩ := Option.isSome_iff_exists.mp hufind
    constructor
    · rw [MessageService.send_room_message, hval]
      rw [if_neg (by simp [hmem])]
      rw [hroom2, huser2, hreply]
      simp [isSuccess, hmem]
    · intro hfalse
      rw [hfalse] at hmem
      exact absurd hmem (by simp)
  · have hmem2 : Database.is_user_in_room db request.room_id sender_id = false := by
      simpa using hmem
    constructor
    · rw [MessageService.send_room_message, hval, if_pos (by simp [hmem2])]
      simp [isSuccess, hmem2]
    · intro _
      rw [MessageService.send_room_message, hval, if_pos (by simp [hmem2])]

/-- C1 witness: in the example room, member alice sends successfully while
the stranger z fails with the membership error. -/
theorem send_room_message_iff_membership_witness :
    isSuccess (MessageService.send_room_message exDb1 4 "m9" exGenId "a"
      { room_id := "r", content := "hello", reply_to_message_id := none }) = true
    ∧ MessageService.send_room_message exDb1 4 "m9" exGenId "z"
      { room_id := "r", content := "hello", reply_to_message_id := none }
      = .error (.invalidInput "You are not a member of this room") := by
  constructor
  · exact (send_room_message_iff_membership exDb1 4 "m9" exGenId "a"
      { room_id := "r", content := "hello", reply_to_message_id := none }
      ⟨by decide, by decide⟩ rfl (by decide)).1.mpr (by decide)
  · exact (send_room_message_iff_membership exDb1 4 "m9" exGenId "z"
      { room_id := "r", content := "hello", reply_to_message_id := none }
      ⟨by decide, by decide⟩ rfl (by decide)).2 (by decide)

/-- C5 counterexample: no clamping of the limit happens anywhere on the
room-history path (limit 0 returns no rows instead of being clamped to 1),
and the entry for m1 carries an empty mention list even though a mention
row for m1 is persisted: get_message_mentions always fails on its
nonexistent column and unwrap_or_default substitutes the empty list. -/
theorem room_history_counterexample :
    MessageService.get_room_messages exDb5 "r" 0 0 = .ok []
    ∧ MessageService.get_room_messages exDb5 "r" 2 0
      = .ok [{ id := "m2", sender_username := "alice", message_type := .Room, room_id := "r", room_name := "General", content := "hello", sent_at := 2, is_edited := false, edited_at := none, mentions := [], reply_to := none },
             { id := "m1", sender_username := "alice", message_type := .Room, room_id := "r", room_name := "General", content := "hello", sent_at := 1, is_edited := false, edited_at := none, mentions := [], reply_to := none }]
    ∧ exMention1 ∈ exDb5.mentions ∧ exMention1.message_id = "m1" := by
  exact ⟨rfl, rfl, by decide, rfl⟩

/-- filterMap preserves pairwise orderings that transfer along the
function. -/
theorem pairwise_filterMap (f : α → Option β) (R : α → α → Prop) (S : β → β → Prop)
    (l : List α) (h : l.Pairwise R)
    (hrel : ∀ a b x y, f a = some x → f b = some y → R a b → S x y) :
    (l.filterMap f).Pairwise S := by
  induction l with
  | nil => simp
  | cons a as ih =>
    rcases List.pairwise_cons.mp h with ⟨ha, has⟩
    cases hfa : f a with
    | none =>
      rw [List.filterMap_cons, hfa]
      exact ih has
    | some x =>
      rw [List.filterMap_cons, hfa]
      apply List.pairwise_cons.mpr
      refine ⟨?_, ih has⟩
      intro y hy
      obtain ⟨b, hb, hfb⟩ := List.mem_filterMap.mp hy
      exact hrel a b x y hfa hfb (ha b hb)

/-- C5 amended: when the room exists, get_room_messages returns (without
error) at most limit entries — the limit and offset are passed through to
the query unclamped — each entry stemming from a Room- or Server-type
message of the room whose sender row still exists, carrying the room name,
the message fields, the sender username (the literal Server for
Server-type messages), and an always-empty mention list; entries are
ordered by sent_at descending. -/
theorem room_history_characterization (db : DB) (room_id : String)
    (limit offset : Nat) (room : Room)
    (hroom : Database.get_room_by_id db room_id = some room) :
    ∃ resps, MessageService.get_room_messages db room_id limit offset = .ok resps
    ∧ resps.length ≤ limit
    ∧ (∀ resp ∈ resps, resp.mentions = []
        ∧ resp.room_id = room.id ∧ resp.room_name = room.name
        ∧ ∃ m ∈ db.messages, m.id = resp.id ∧ m.room_id = some room_id
          ∧ (m.message_type = .Room ∨ m.message_type = .Server)
          ∧ resp.message_type = m.message_type
          ∧ resp.content = m.content ∧ resp.sent_at = m.sent_at
          ∧ ∃ sender, Database.get_user_by_id db m.sender_id = some sender
            ∧ resp.sender_username
              = (match m.message_type with
                 | .Server => "Server"
                 | _ => sender.username))
    ∧ resps.Pairwise (fun a b => b.sent_at ≤ a.sent_at) := by
  refine ⟨(Database.get_room_messages db room_id limit offset).filterMap
    (fun msg => (Database.get_user_by_id db msg.sender_id).map (fun sender =>
      { id := msg.id,
        sender_username :=
          match msg.message_type with
          | .Server => "Server"
          | _ => sender.username,
        message_type := msg.message_type,
        room_id := room.id, room_name := room.name,
        content := msg.content, sent_at := msg.sent_at,
        is_edited := msg.is_edited, edited_at := msg.edited_at,
        mentions :=
          match Database.get_message_mentions db msg.id with
          | .ok l => l
          | .error _ => [],
        reply_to := MessageService.resolveReplyContext db msg })), ?_, ?_, ?_, ?_⟩
  · rw [MessageService.get_room_messages, hroom]
  · have h1 := List.length_filterMap_le
      (fun msg => (Database.get_user_by_id db msg.sender_id).map (fun sender =>
        ({ id := msg.id,
           sender_username :=
             match msg.message_type with
             | .Server => "Server"
             | _ => sender.username,
           message_type := msg.message_type,
           room_id := room.id, room_name := room.name,
           content := msg.content, sent_at := msg.sent_at,
           is_edited := msg.is_edited, edited_at := msg.edited_at,
           mentions :=
             match Database.get_message_mentions db msg.id with
             | .ok l => l
             | .error _ => [],
           reply_to := MessageService.resolveReplyContext db msg } : RoomMessageResponse)))
      (Database.get_room_messages db room_id limit offset)
    refine le_trans h1 ?_
    rw [Database.get_room_messages]
    exact List.length_take_le _ _
  · intro resp hresp
    obtain ⟨msg, hmsg, hf⟩ := List.mem_filterMap.mp hresp
    cases hu : Database.get_user_by_id db msg.sender_id with
    | none => rw [hu] at hf; exact absurd hf (by simp)
    | some sender =>
      rw [hu] at hf
      simp only [Option.map_some'] at hf
      injection hf with hf
      subst hf
      have hmem : msg ∈ db.messages.filter (fun m =>
          (m.message_type == MessageType.Room || m.message_type == MessageType.Server)
            && m.room_id == some room_id) := by
        rw [Database.get_room_messages] at hmsg
        exact (mem_sortBy _ _ _).mp (List.mem_of_mem_drop (List.mem_of_mem_take hmsg))
      have hmem2 := List.mem_filter.mp hmem
      have htype : msg.message_type = MessageType.Room ∨ msg.message_type = MessageType.Server := by
        have := hmem2.2
        simp only [Bool.and_eq_true, Bool.or_eq_true, beq_iff_eq] at this
        exact this.1
      have hrid : msg.room_id = some room_id := by
        have := hmem2.2
        simp only [Bool.and_eq_true, Bool.or_eq_true, beq_iff_eq] at this
        exact this.2
      refine ⟨rfl, rfl, rfl, msg, hmem2.1, rfl, hrid, htype, rfl, rfl, rfl, sender, hu, rfl⟩
  · apply pairwise_filterMap _ (fun a b => Database.sentAtDesc a b = true)
    · rw [Database.get_room_messages]
      apply List.Pairwise.sublist (List.take_sublist _ _)
      apply List.Pairwise.sublist (List.drop_sublist _ _)
      exact pairwise_sortBy Database.sentAtDesc
        (fun a b c h1 h2 => by
          simp only [Database.sentAtDesc] at *
          exact decide_eq_true (le_trans (of_decide_eq_true h2) (of_decide_eq_true h1)))
        (fun a b => by
          simp only [Database.sentAtDesc]
          rcases Nat.le_total b.sent_at a.sent_at with h1 | h1
          · exact Or.inl (decide_eq_true h1)
          · exact Or.inr (decide_eq_true h1)) _
    · intro a b x y hfa hfb hab
      cases hua : Database.get_user_by_id db a.sender_id with
      | none => rw [hua] at hfa; exact absurd hfa (by simp)
      | some sa =>
        cases hub : Database.get_user_by_id db b.sender_id with
        | none => rw [hub] at hfb; exact absurd hfb (by simp)
        | some sb =>
          rw [hua] at hfa
          rw [hub] at hfb
          simp only [Option.map_some'] at hfa hfb
          injection hfa with hfa
          injection hfb with hfb
          subst hfa
          subst hfb
          simpa [Database.sentAtDesc] using hab

/-- C5 amended witness: with the room present, limit 1 returns exactly the
newest entry and its length is within the limit. -/
theorem room_history_characterization_witness :
    MessageService.get_room_messages exDb5 "r" 1 0
      = .ok [{ id := "m2", sender_username := "alice", message_type := .Room, room_id := "r", room_name := "General", content := "hello", sent_at := 2, is_edited := false, edited_at := none, mentions := [], reply_to := none }]
    ∧ ([{ id := "m2", sender_username := "alice", message_type := MessageType.Room, room_id := "r", room_name := "General", content := "hello", sent_at := 2, is_edited := false, edited_at := none, mentions := [], reply_to := none }] : List RoomMessageResponse).length ≤ 1 := by
  obtain ⟨resps, heq, hlen, -, -⟩ := room_history_characterization exDb5 "r" 1 0 exRoom rfl
  have hval : MessageService.get_room_messages exDb5 "r" 1 0
      = .ok [{ id := "m2", sender_username := "alice", message_type := .Room, room_id := "r", room_name := "General", content := "hello", sent_at := 2, is_edited := false, edited_at := none, mentions := [], reply_to := none }] := rfl
  refine ⟨hval, ?_⟩
  rw [hval] at heq
  injection heq with heq
  rw [heq]
  exact hlen

/-- Every branch of the authenticated dispatcher continues the loop. -/
theorem handleAuthed_action_cont (env : WsEnv) (st : ConnState) (now : Nat)
    (user_id : String) (msg : WsClientMessage) :
    (handleAuthed env st now user_id msg).action = .cont := by
  cases msg <;> simp only [handleAuthed] <;> (repeat' split) <;> rfl

/-- C8: on an unauthenticated connection any command other than
Authenticate produces exactly one Error event to that connection, nothing
else, and the loop continues with the state unchanged (still
unauthenticated); and the only dispatch outcome that breaks the command
loop is an Authenticate whose session validation failed — in particular no
business-rule failure after authentication ever closes the connection. -/
theorem ws_unauthenticated_and_break_policy (env : WsEnv) (st : ConnState)
    (now : Nat) (msg : WsClientMessage) :
    (st.auth_user_id = none → (∀ token, msg ≠ .Authenticate token) →
      handle_client_message env st now msg
        = { toClient := [.Error "User not authenticated"], roomSends := [],
            userSends := [], state := st, action := .cont })
    ∧ ((handle_client_message env st now msg).action = .brk →
      ∃ token e, msg = .Authenticate token ∧ env.validate_session token = .error e) := by
  constructor
  · intro hnone hne
    cases msg
    case Authenticate token => exact absurd rfl (hne token)
    all_goals simp [handle_client_message, hnone]
  · intro hbrk
    cases msg
    case Authenticate token =>
      cases hv : env.validate_session token with
      | ok user =>
        exfalso
        simp only [handle_client_message, hv] at hbrk
        cases h2 : env.get_user_rooms user.id <;> simp [h2] at hbrk
      | error e => exact ⟨token, e, rfl, hv⟩
    all_goals
      exfalso
      cases hst : st.auth_user_id <;>
        simp [handle_client_message, hst, handleAuthed_action_cont] at hbrk

/-- C8 witness: at the example oracle environment, an unauthenticated
GetAllRooms is answered with the single not-authenticated error, dropped,
and the connection state is unchanged with the loop continuing. -/
theorem ws_unauthenticated_witness :
    handle_client_message exEnv { auth_user_id := none, auth_username := none } 0
        WsClientMessage.GetAllRooms
      = { toClient := [.Error "User not authenticated"], roomSends := [], userSends := [],
          state := { auth_user_id := none, auth_username := none }, action := .cont } :=
  (ws_unauthenticated_and_break_policy exEnv
    { auth_user_id := none, auth_username := none } 0 WsClientMessage.GetAllRooms).1
    rfl (fun _ h => WsClientMessage.noConfusion h)

end SpaRk
